import Mathlib

/-!
# Badminton trajectory simulator: embedding of `badminton_trajectory.c`

The C program works on `double` and `int`.  In this development a `double` is an
element of an arbitrary linearly ordered field `K` (exact arithmetic: no rounding, no
NaN, no infinities), so that every definition runs on `ℚ` and every theorem also
holds on `ℝ`.  The C library functions `cos` and `sin` are not part of the
repository; they are a parameter (`Libm`).  A C `int` is an `Int` (no value in the
program comes near the 32-bit range).  The trajectory array is a map from indices to
points; a character array `char buf[H][W]` is the list of its rows.

One `double` is not treated this way: the loop clock `t` of `simulate_trajectory`.
Its values do not depend on the inputs, and its rounding decides how many passes the
loop makes (`0.01` is not a binary fraction, so the sum of 800 copies of it falls
short of `8.0`).  The clock is therefore a binary64 value, held as the rational number
it denotes, and `t += DT` is the correctly rounded sum (`fl64`).
-/

namespace Badminton

/-! ## Configuration constants (lines 21-36) -/

section Constants
variable (K : Type) [LinearOrderedField K]

def M_PI : K := 3.14159265358979323846
def COURT_LENGTH : K := 13.40
def COURT_WIDTH : K := 5.18
def NET_POS : K := COURT_LENGTH K / 2.0
def NET_HEIGHT : K := 1.524
def GRAVITY : K := 9.81
def DT : K := 0.01
def DRAG : K := 0.018
def TIMEOUT : K := 8.0

end Constants

def MAX_STEPS : Int := 20000
def GRID_COLS : Int := 72
def GRID_ROWS : Int := 21
def PANEL_W : Int := GRID_COLS + 2
def PANEL_H : Int := GRID_ROWS + 4

/-! ## Binary64 rounding, for the loop clock -/

/-- Round to the nearest integer, ties to the even one (the IEEE 754 default). -/
def round_half_even (x : ℚ) : Int :=
  let f := ⌊x⌋
  let r := x - f
  if r < 1 / 2 then f
  else if 1 / 2 < r then f + 1
  else if f % 2 = 0 then f else f + 1

/-- Floor of the binary logarithm of a natural number `1 ≤ n < 2 ^ 2048` (a range that
holds the numerator and the denominator of every binary64 value): the largest `e` with
`2 ^ e ≤ n`, found bit by bit from the top. -/
def nat_log2 (n : Nat) : Nat :=
  [1024, 512, 256, 128, 64, 32, 16, 8, 4, 2, 1].foldl
    (fun e b => if 2 ^ (e + b) ≤ n then e + b else e) 0

/-- Floor of the binary logarithm of a positive rational `p / q`: it is
`log2 p - log2 q` or one less. -/
def ilog2 (x : ℚ) : Int :=
  let e : Int := (nat_log2 x.num.natAbs : Int) - (nat_log2 x.den : Int)
  if (2 : ℚ) ^ e ≤ x then e else e - 1

/-- The binary64 value nearest to `x`: with `2 ^ e ≤ |x| < 2 ^ (e + 1)` the spacing of
the 53-bit significands is `u = 2 ^ (e - 52)`, and `x` is rounded to the nearest
multiple of `u`, ties to even.  The exponent range is not modelled (no overflow, no
subnormals): the clock stays between `0.01` and `8.02`. -/
def fl64 (x : ℚ) : ℚ :=
  if x = 0 then 0
  else
    let u : ℚ := 2 ^ (ilog2 |x| - 52)
    round_half_even (x / u) * u

/-- The clock `t` at the loop head after `k` passes: `0.0`, then `t += DT` each pass
(lines 189 and 217). -/
def clock : Nat → ℚ
  | 0 => 0.0
  | k + 1 => fl64 (clock k + fl64 (DT ℚ))

/-- Walk the clock from `t` for at most `fuel` passes and count those made while
`t < T`. -/
def passes_until (T : ℚ) : Nat → ℚ → Nat
  | 0, _ => 0
  | fuel + 1, t => if t < T then passes_until T fuel (fl64 (t + fl64 (DT ℚ))) + 1 else 0

/-! ## Helpers (lines 60-88) -/

section Integrator
variable {K : Type} [LinearOrderedField K]

/-- The two functions of the C math library used by the integrator. -/
structure Libm (K : Type) where
  cos : K → K
  sin : K → K

/-- Posture contact height, lines 61-66. -/
def contact_height (player_height : K) (posture : Int) : K :=
  let base := 0.85 * player_height
  if posture = 1 then base - 0.30
  else if posture = 2 then base + 0.42
  else base

/-- Shot table, lines 69-81: `(angle_deg, speed_mult, lat_spread_deg)`. -/
def shot_params (shotType : Int) : K × K × K :=
  if shotType = 0 then (-10.0, 1.5, 2.5)
  else if shotType = 1 then (40.0, 0.95, 6.0)
  else if shotType = 2 then (12.0, 0.7, 10.0)
  else (2.0, 1.2, 6.0)

/-- Clamp helper, lines 84-88. -/
def clampd (v lo hi : K) : K :=
  if v < lo then lo
  else if v > hi then hi
  else v

/-! ## The integrator (lines 152-239) -/

structure Point3 (K : Type) where
  y : K
  xlat : K
  z : K

/-- The local variables of `simulate_trajectory` that live across loop iterations,
together with the caller's buffer `traj`.  The clock `t` is a binary64 value. -/
structure SimState (K : Type) where
  traj : Int → Point3 K
  y : K
  xlat : K
  z : K
  vy : K
  vx : K
  vz : K
  idx : Int
  t : ℚ
  net_checked : Int
  cleared : Int

/-- Which `return` of `simulate_trajectory` produced the result: the one inside the
landing test (line 226), or the one after the loop (line 238), reached either by the
`break` of line 230 or because the loop condition of line 191 failed. -/
inductive Exit where
  | landed
  | bounds
  | loopEnd
  deriving DecidableEq, Repr

/-- Everything `simulate_trajectory` hands back: the return value `n`, the buffer, the
four out-parameters, and the exit path taken. -/
structure SimResult (K : Type) where
  n : Int
  traj : Int → Point3 K
  out_landing_y : K
  out_landing_x : K
  out_landing_z : K
  out_cleared_net : Int
  exit : Exit

/-- Initial speed, lines 174-176. -/
def launch_speed (swing_speed tension_mult contact_offset speed_mult : K) : K :=
  let contact_mult := 1.0 - clampd (contact_offset / 0.03) 0.0 0.4
  let v0 := swing_speed * speed_mult * tension_mult * contact_mult
  if v0 < 2.0 then 2.0 else v0

/-- State on entry to the loop, lines 166-189. -/
def init_state (m : Libm K) (player_height : K) (posture : Int)
    (swing_speed tension_mult contact_offset : K) (shotType : Int) (yaw_deg : K)
    (traj : Int → Point3 K) : SimState K :=
  let z := contact_height player_height posture
  let angle_deg := (shot_params shotType : K × K × K).1
  let speed_mult := (shot_params shotType : K × K × K).2.1
  let v0 := launch_speed swing_speed tension_mult contact_offset speed_mult
  let elev := angle_deg * M_PI K / 180.0
  let yaw := yaw_deg * M_PI K / 180.0
  { traj := traj, y := 0.0, xlat := 0.0, z := z,
    vy := v0 * m.cos elev * m.cos yaw,
    vx := v0 * m.cos elev * m.sin yaw,
    vz := v0 * m.sin elev,
    idx := 0, t := 0.0, net_checked := 0, cleared := 0 }

/-- One pass through lines 193-217: store the point, net check, Euler update. -/
def step (s : SimState K) : SimState K :=
  let traj := fun i => if i = s.idx then (⟨s.y, s.xlat, s.z⟩ : Point3 K) else s.traj i
  let idx := s.idx + 1
  let latch := s.net_checked = 0 ∧ s.y ≥ NET_POS K
  let net_checked := if latch then 1 else s.net_checked
  let cleared := if latch then (if s.z > NET_HEIGHT K + 0.02 then 1 else 0) else s.cleared
  let ay := -DRAG K * s.vy
  let ax := -DRAG K * s.vx
  let az := -GRAVITY K - DRAG K * s.vz
  let vy := s.vy + ay * DT K
  let vx := s.vx + ax * DT K
  let vz := s.vz + az * DT K
  { traj := traj, idx := idx, net_checked := net_checked, cleared := cleared,
    vy := vy, vx := vx, vz := vz,
    y := s.y + vy * DT K,
    xlat := s.xlat + vx * DT K,
    z := s.z + vz * DT K,
    t := fl64 (s.t + fl64 (DT ℚ)) }

/-- The `return` inside the landing test, lines 220-227. -/
def land_result (s : SimState K) : SimResult K :=
  { n := s.idx, traj := s.traj,
    out_landing_y := s.y, out_landing_x := s.xlat, out_landing_z := 0.0,
    out_cleared_net := s.cleared, exit := Exit.landed }

/-- The `return` after the loop, lines 233-238. -/
def end_result (e : Exit) (s : SimState K) : SimResult K :=
  { n := s.idx, traj := s.traj,
    out_landing_y := s.y, out_landing_x := s.xlat, out_landing_z := s.z,
    out_cleared_net := if s.net_checked ≠ 0 then s.cleared else 0, exit := e }

/-- The loop condition of line 191. -/
def loop_cond (max_points : Int) (s : SimState K) : Prop :=
  s.t < fl64 (TIMEOUT ℚ) ∧ s.idx < max_points

instance (max_points : Int) (s : SimState K) : Decidable (loop_cond max_points s) := by
  unfold loop_cond; infer_instance

/-- The bounds test of line 230. -/
def out_of_bounds (s : SimState K) : Prop :=
  s.y > COURT_LENGTH K + 8.0 ∨ |s.xlat| > COURT_WIDTH K + 5.0

instance (s : SimState K) : Decidable (out_of_bounds s) := by
  unfold out_of_bounds; infer_instance

/-- The `while` loop of lines 191-231 followed by lines 233-238.  The first argument
is fuel; `none` means the fuel ran out with the loop condition still true. -/
def sim_loop (max_points : Int) : Nat → SimState K → Option (SimResult K)
  | 0, s =>
    if loop_cond max_points s then none
    else some (end_result Exit.loopEnd s)
  | fuel + 1, s =>
    if loop_cond max_points s then
      if (step s).z ≤ 0.0 then some (land_result (step s))
      else if out_of_bounds (step s) then some (end_result Exit.bounds (step s))
      else sim_loop max_points fuel (step s)
    else some (end_result Exit.loopEnd s)

/-- Lines 153-239.  The loop counter `idx` grows by one per iteration and the loop
stops at `idx = max_points`, so `max_points` iterations of fuel are enough. -/
def simulate_trajectory (m : Libm K) (player_height : K) (posture : Int)
    (swing_speed tension_mult contact_offset : K) (shotType : Int) (yaw_deg : K)
    (traj : Int → Point3 K) (max_points : Int) : Option (SimResult K) :=
  sim_loop max_points max_points.toNat
    (init_state m player_height posture swing_speed tension_mult contact_offset
      shotType yaw_deg traj)

end Integrator

/-! ## World-to-grid mapping (lines 46-58) -/

section Mapping
variable {K : Type} [LinearOrderedField K] [FloorRing K]

/-- C `round` followed by the conversion to `int`: the nearest integer, halfway cases
away from zero. -/
def c_round (x : K) : Int :=
  if 0 ≤ x then ⌊x + 0.5⌋ else -⌊-x + 0.5⌋

/-- Forward distance to grid column, lines 46-49. -/
def mapYtoCol (y : K) : Int :=
  let y := if y < 0 then 0 else y
  let y := if y > COURT_LENGTH K then COURT_LENGTH K else y
  c_round ((y / COURT_LENGTH K) * ((GRID_COLS - 1 : Int) : K))

/-- Lateral offset to grid row, lines 50-58. -/
def mapXtoRow (xlat : K) : Int :=
  let half := COURT_WIDTH K / 2.0
  let xlat := if xlat < -half then -half else xlat
  let xlat := if xlat > half then half else xlat
  let frac := (xlat + half) / COURT_WIDTH K
  c_round (frac * ((GRID_ROWS - 1 : Int) : K))

end Mapping

/-! ## Terminal layout and the court drawing (lines 38-44, 94-141) -/

def CHAR_PLAYER : Char := 'P'
def CHAR_SHUTTLE : Char := 'O'
def CHAR_LANDING : Char := 'X'
def CHAR_TRAIL : Char := '.'
def CHAR_SHADOW : Char := '_'

/-- A two-dimensional character array `char buf[H][W]`: the list of its rows. -/
abbrev Buf := List (List Char)

/-- The read `buf[r][c]` (a blank outside the array, where C leaves it undefined). -/
def get_cell (buf : Buf) (r c : Int) : Char :=
  if 0 ≤ r ∧ 0 ≤ c then (buf.getD r.toNat []).getD c.toNat ' ' else ' '

/-- The store `buf[r][c] = ch` (no effect outside the array, where C leaves it
undefined). -/
def set_cell (buf : Buf) (r c : Int) (ch : Char) : Buf :=
  if 0 ≤ r ∧ 0 ≤ c then buf.set r.toNat ((buf.getD r.toNat []).set c.toNat ch) else buf

/-- The loop `for (int i = lo; i < hi; i++) body`, threading the state through. -/
def for_loop {σ : Type} (lo hi : Int) (body : Int → σ → σ) (s : σ) : σ :=
  (List.range (hi - lo).toNat).foldl (fun (acc : σ) (k : Nat) => body (lo + (k : Int)) acc) s

/-- The label loops of lines 134, 137 and 140: copy `lbl` into the last panel row
starting at column `c0`, skipping columns at or past `PANEL_W - 2`. -/
def put_label (buf : Buf) (lbl : List Char) (c0 : Int) : Buf :=
  for_loop 0 lbl.length
    (fun i b => if c0 + i < PANEL_W - 2 then set_cell b (PANEL_H - 1) (c0 + i) (lbl.getD i.toNat ' ')
      else b) buf

section Court
variable (K : Type) [LinearOrderedField K] [FloorRing K]

/-- Draw the top-view court into the buffer, lines 94-141. -/
def draw_court (buf : Buf) : Buf :=
  -- fill spaces
  let buf := for_loop 0 PANEL_H (fun r b => for_loop 0 PANEL_W (fun c b => set_cell b r c ' ') b) buf
  -- draw border
  let buf := for_loop 0 (PANEL_W - 2)
    (fun c b => set_cell (set_cell b 1 (c + 1) '-') (PANEL_H - 2) (c + 1) '-') buf
  let buf := for_loop 1 (PANEL_H - 1)
    (fun r b => set_cell (set_cell b r 0 '|') r (PANEL_W - 2) '|') buf
  let buf := set_cell (set_cell buf 1 (PANEL_W - 2) '+') 1 0 '+'
  let buf := set_cell (set_cell buf (PANEL_H - 2) (PANEL_W - 2) '+') (PANEL_H - 2) 0 '+'
  let off_r : Int := 2
  let off_c : Int := 1
  -- sidelines
  let buf := for_loop 0 GRID_COLS
    (fun c b => set_cell (set_cell b (off_r + GRID_ROWS) (off_c + c) '-') (off_r - 1) (off_c + c) '-')
    buf
  -- centre line at the net
  let net_col := mapYtoCol (NET_POS K)
  let buf := for_loop 0 GRID_ROWS (fun r b => set_cell b (off_r + r) (off_c + net_col) '|') buf
  -- service lines
  let svc_front_dist : K := 1.98
  let svc_left_col := mapYtoCol (NET_POS K - svc_front_dist)
  let svc_right_col := mapYtoCol (NET_POS K + svc_front_dist)
  let buf := for_loop 0 GRID_ROWS
    (fun r b => set_cell (set_cell b (off_r + r) (off_c + svc_left_col) '+')
      (off_r + r) (off_c + svc_right_col) '+') buf
  -- centre horizontal line, over blanks only
  let mid_row := off_r + Int.tdiv GRID_ROWS 2
  let buf := for_loop 0 GRID_COLS
    (fun c b =>
      let prev := get_cell b mid_row (off_c + c)
      if prev = ' ' then set_cell b mid_row (off_c + c) '-' else b) buf
  -- distance labels
  let c0 := off_c + mapYtoCol (0 : K)
  let buf := put_label buf ['0', 'm'] c0
  let cn := off_c + mapYtoCol (NET_POS K) - 1
  let buf := put_label buf ['N', 'E', 'T'] cn
  let ce := off_c + mapYtoCol (COURT_LENGTH K) - 5
  let buf := put_label buf ['1', '3', '.', '4', 'm'] ce
  buf

end Court

/-- A `PANEL_H x PANEL_W` buffer filled with one character. -/
def const_panel (ch : Char) : Buf :=
  List.replicate PANEL_H.toNat (List.replicate PANEL_W.toNat ch)

/-- The buffer has the shape of `char buf[PANEL_H][PANEL_W]`. -/
def is_panel (buf : Buf) : Prop :=
  buf.length = PANEL_H.toNat ∧ ∀ row ∈ buf, row.length = PANEL_W.toNat

/-! ## Vocabulary for stating properties of a run -/

section RunVocabulary
variable {K : Type} [LinearOrderedField K]

/-- One full iteration of the loop, from loop head to loop head: the loop condition
holds, the body runs (`step`), and neither the landing `return` nor the bounds `break`
is taken. -/
def Iter (max_points : Int) (s s' : SimState K) : Prop :=
  loop_cond max_points s ∧ ¬ (step s).z ≤ 0 ∧ ¬ out_of_bounds (step s) ∧ s' = step s

/-- Index `i` is the first recorded point (among `0 .. n-1`) whose forward distance is
at or past the net. -/
def first_net_point (traj : Int → Point3 K) (n i : Int) : Prop :=
  0 ≤ i ∧ i < n ∧ (traj i).y ≥ NET_POS K ∧ ∀ j : Int, 0 ≤ j → j < i → (traj j).y < NET_POS K

/-- The relation between the two flags and the points stored so far. -/
def flag_inv (s : SimState K) : Prop :=
  0 ≤ s.idx ∧
  ((s.net_checked = 0 ∧ s.cleared = 0 ∧
      ∀ j : Int, 0 ≤ j → j < s.idx → (s.traj j).y < NET_POS K) ∨
   (s.net_checked = 1 ∧ ∃ i : Int, first_net_point s.traj s.idx i ∧
      s.cleared = if (s.traj i).z > NET_HEIGHT K + 0.02 then 1 else 0))

end RunVocabulary

/-- A rational stand-in for the C math library, on which the definitions can be run:
exact at `0`, and a fixed point of the unit circle everywhere else. -/
def libmQ : Libm ℚ :=
  ⟨fun x => if x = 0 then 1 else 4 / 5, fun x => if x = 0 then 0 else 3 / 5⟩

/-- A buffer holding the origin in every slot. -/
def zero_buf (K : Type) [LinearOrderedField K] : Int → Point3 K :=
  fun _ => ⟨0, 0, 0⟩

/-- A loop-head state whose net check has already happened (flag latched to 1). -/
def latched_state : SimState ℚ :=
  { traj := zero_buf ℚ, y := 7, xlat := 0, z := 2, vy := 10, vx := 0, vz := 0,
    idx := 5, t := 1 / 2, net_checked := 1, cleared := 1 }

/-! ## Closed form of the Euler recurrence, used for the drive scenario -/

/-- Coefficients of the closed form of the Euler recurrence after `k` steps. -/
structure EulerCoef where
  p : ℚ
  a : ℚ
  h : ℚ
  g : ℚ

def euler_coef : Nat → EulerCoef
  | 0 => ⟨1, 0, 0, 0⟩
  | k + 1 =>
    let c := euler_coef k
    let p := c.p * (1 - DRAG ℚ * DT ℚ)
    let h := c.h * (1 - DRAG ℚ * DT ℚ) + GRAVITY ℚ * DT ℚ
    ⟨p, c.a + DT ℚ * p, h, c.g + DT ℚ * h⟩

def drive_z_lo (k : Nat) : ℚ := 14875 / 10000 + 288 / 10 * (348 / 10000) * (euler_coef k).a - (euler_coef k).g
def drive_z_hi (k : Nat) : ℚ := 14875 / 10000 + 288 / 10 * (350 / 10000) * (euler_coef k).a - (euler_coef k).g

section DriveVocabulary
variable {K : Type} [LinearOrderedField K]

/-- Loop-head states of the drive scenario: `k` iterations done, motion in closed form
with forward launch speed `28.8 * c` and vertical launch speed `28.8 * sn`. -/
def drive_inv (c sn : K) (s : SimState K) : Prop :=
  ∃ k : Nat, k ≤ 65 ∧ s.idx = k ∧ s.t = clock k ∧ s.xlat = 0 ∧ s.vx = 0 ∧ s.cleared = 0 ∧
    s.y = 288 / 10 * c * (euler_coef k).a ∧ s.vy = 288 / 10 * c * (euler_coef k).p ∧
    s.z = 14875 / 10000 + 288 / 10 * sn * (euler_coef k).a - (euler_coef k).g ∧
    s.vz = 288 / 10 * sn * (euler_coef k).p - (euler_coef k).h

/-- Loop-head states of the sideways drive: `k` iterations done, motion in closed form
with forward launch speed `vy0`, lateral launch speed `vx0` and vertical launch speed
`28.8 * sn`. -/
def side_inv (vy0 vx0 sn : K) (s : SimState K) : Prop :=
  ∃ k : Nat, k ≤ 35 ∧ s.idx = k ∧ s.t = clock k ∧
    s.y = vy0 * (euler_coef k).a ∧ s.vy = vy0 * (euler_coef k).p ∧
    s.xlat = vx0 * (euler_coef k).a ∧ s.vx = vx0 * (euler_coef k).p ∧
    s.z = 14875 / 10000 + 288 / 10 * sn * (euler_coef k).a - (euler_coef k).g ∧
    s.vz = 288 / 10 * sn * (euler_coef k).p - (euler_coef k).h

end DriveVocabulary

/-- A rational stand-in for the C math library that is exact at `0` and accurate to
four decimals at the launch angle of a drive (2 degrees). -/
def libm_drive : Libm ℚ :=
  ⟨fun x => if x = 0 then 1 else 0.9994, fun x => if x = 0 then 0 else 0.0349⟩

/-! ## Vocabulary for the closed form and the flight bounds -/

section ClosedFormVocabulary
variable (K : Type) [LinearOrderedField K]

/-- The factor by which linear drag shrinks a velocity in one step, `q = 1 - DRAG * DT`. -/
def drag_factor : K := 1 - DRAG K * DT K

variable {K}

/-- The geometric sum `q + q^2 + ... + q^k`. -/
def drag_sum (k : Nat) : K := ∑ j in Finset.Icc 1 k, drag_factor K ^ j

/-- Vertical velocities of the recurrence `vz_{k+1} = vz_k * q - GRAVITY * DT`. -/
def vz_seq (vz0 : K) : Nat → K
  | 0 => vz0
  | k + 1 => vz_seq vz0 k * drag_factor K - GRAVITY K * DT K

end ClosedFormVocabulary

section RunInvariants
variable {K : Type} [LinearOrderedField K]

/-- The loop-head state after `k` iterations, in closed form. -/
def closed_inv (vy0 vx0 vz0 z0 : K) (s : SimState K) : Prop :=
  ∃ k : Nat, s.idx = k ∧
    s.y = vy0 * DT K * drag_sum k ∧ s.vy = vy0 * drag_factor K ^ k ∧
    s.xlat = vx0 * DT K * drag_sum k ∧ s.vx = vx0 * drag_factor K ^ k ∧
    s.vz = vz_seq vz0 k ∧
    (∀ i : Nat, i < k →
      (s.traj i).y = vy0 * DT K * drag_sum i ∧ (s.traj i).xlat = vx0 * DT K * drag_sum i) ∧
    (k = 0 → s.z = z0) ∧
    (∀ i : Nat, i + 1 < k → (s.traj (i + 1 : Nat)).z =
      (s.traj i).z + DT K * (vz_seq vz0 i * drag_factor K - GRAVITY K * DT K)) ∧
    (0 < k → (s.traj 0).z = z0) ∧
    (∀ j : Nat, k = j + 1 → s.z =
      (s.traj j).z + DT K * (vz_seq vz0 j * drag_factor K - GRAVITY K * DT K))

end RunInvariants

/-! ## The animation (lines 242-308) and `main` (lines 311-340) -/

/-- The three closing lines `animate_topview` can print after the landing summary. -/
inductive Verdict where
  | fell_short
  | long
  | inside
  deriving DecidableEq, Repr

/-- What `animate_topview` keeps between two passes of its frame loop: the screen
buffer, the trail map, and the frames handed to `print_buf` so far. -/
structure AnimState where
  buf : Buf
  trail : Buf
  frames : List Buf

/-- What `animate_topview` shows: the frames in order, the `YES`/`NO` of the summary
line, and the closing line. -/
structure Animation where
  frames : List Buf
  net_cleared : Bool
  verdict : Verdict

section Animate
variable (K : Type) [LinearOrderedField K] [FloorRing K]

/-- The landing classification of lines 305-307. -/
def landing_verdict (land_y : K) : Verdict :=
  if land_y < NET_POS K then Verdict.fell_short
  else if land_y > COURT_LENGTH K then Verdict.long
  else Verdict.inside

/-- The test of line 287 that decides whether the landing marker is painted in the
frame of point `i`. -/
def landing_due (traj : Int → Point3 K) (npoints : Int) (land_y land_x : K) (i : Int) : Prop :=
  i = npoints - 1 ∨ (|(traj i).y - land_y| < 0.02 ∧ |(traj i).xlat - land_x| < 0.02)

instance (traj : Int → Point3 K) (npoints : Int) (land_y land_x : K) (i : Int) :
    Decidable (landing_due K traj npoints land_y land_x i) := by
  unfold landing_due; infer_instance

/-- The loop nest of lines 271-276: copy every non-blank cell of the trail map into
the grid area of the screen buffer. -/
def overlay_trail (trail buf : Buf) : Buf :=
  let off_r : Int := 2
  let off_c : Int := 1
  for_loop 0 GRID_ROWS
    (fun rr b => for_loop 0 GRID_COLS
      (fun cc b =>
        let ch := get_cell trail rr cc
        if ch ≠ ' ' then set_cell b (off_r + rr) (off_c + cc) ch else b) b) buf

/-- One pass of the frame loop, lines 261-294, for point `i`. -/
def animate_frame (traj : Int → Point3 K) (npoints : Int) (land_y land_x : K)
    (player_row player_col landing_row landing_col : Int) (i : Int) (st : AnimState) :
    AnimState :=
  let off_r : Int := 2
  let off_c : Int := 1
  -- update trail
  let c := mapYtoCol (traj i).y
  let r := mapXtoRow (traj i).xlat
  let trail :=
    if 0 ≤ r ∧ r < GRID_ROWS ∧ 0 ≤ c ∧ c < GRID_COLS then set_cell st.trail r c CHAR_TRAIL
    else st.trail
  -- refresh base court
  let buf := draw_court K st.buf
  -- player
  let buf := set_cell buf (off_r + player_row) (off_c + player_col) CHAR_PLAYER
  -- draw trail onto buf
  let buf := overlay_trail trail buf
  -- shuttle current pos
  let sc := mapYtoCol (traj i).y
  let sr := mapXtoRow (traj i).xlat
  let buf :=
    if 0 ≤ sr ∧ sr < GRID_ROWS ∧ 0 ≤ sc ∧ sc < GRID_COLS then
      set_cell buf (off_r + sr) (off_c + sc) CHAR_SHUTTLE
    else buf
  -- shadow on ground row
  let shadow_row := off_r + GRID_ROWS
  let buf :=
    if shadow_row < PANEL_H - 1 ∧ 0 ≤ sc ∧ sc < GRID_COLS then
      set_cell buf shadow_row (off_c + sc) CHAR_SHADOW
    else buf
  -- landing marker
  let buf :=
    if landing_due K traj npoints land_y land_x i then
      if 0 ≤ landing_row ∧ landing_row < GRID_ROWS ∧ 0 ≤ landing_col ∧ landing_col < GRID_COLS
      then set_cell buf (off_r + landing_row) (off_c + landing_col) CHAR_LANDING
      else buf
    else buf
  -- clear and print
  { buf := buf, trail := trail, frames := st.frames ++ [buf] }

/-- Animate the stored trajectory, lines 242-308.  The local arrays `buf` and `trail`
start with whatever the stack holds (`buf0`, `trail0`). -/
def animate_topview (traj : Int → Point3 K) (npoints : Int) (land_y land_x : K)
    (cleared_net : Int) (buf0 trail0 : Buf) : Animation :=
  let buf := draw_court K buf0
  -- place player marker near left baseline centre
  let player_col := mapYtoCol (0 : K)
  let player_row := mapXtoRow (0.0 : K)
  let off_r : Int := 2
  let off_c : Int := 1
  let buf := set_cell buf (off_r + player_row) (off_c + player_col) CHAR_PLAYER
  -- trail map
  let trail := for_loop 0 GRID_ROWS
    (fun r t => for_loop 0 GRID_COLS (fun c t => set_cell t r c ' ') t) trail0
  let landing_col := mapYtoCol land_y
  let landing_row := mapXtoRow land_x
  -- animate frames
  let st := for_loop 0 npoints
    (animate_frame K traj npoints land_y land_x player_row player_col landing_row landing_col)
    { buf := buf, trail := trail, frames := [] }
  -- final summary
  { frames := st.frames,
    net_cleared := decide (cleared_net ≠ 0),
    verdict := landing_verdict K land_y }

/-- The part of `main` after the seven inputs have been read, lines 323-335: simulate
with `MAX_STEPS` points, and animate when at least one point came back. -/
def main (m : Libm K) (player_h : K) (posture : Int) (swing tension offset : K)
    (shot : Int) (yaw : K) (traj0 : Int → Point3 K) (buf0 trail0 : Buf) :
    Option (SimResult K × Option Animation) :=
  match simulate_trajectory m player_h posture swing tension offset shot yaw traj0 MAX_STEPS with
  | none => none
  | some r =>
    if r.n ≤ 0 then some (r, none)
    else some (r, some (animate_topview K r.traj r.n r.out_landing_y r.out_landing_x
      r.out_cleared_net buf0 trail0))

end Animate

/-- A `GRID_ROWS x GRID_COLS` trail array filled with one character. -/
def const_trail (ch : Char) : Buf :=
  List.replicate GRID_ROWS.toNat (List.replicate GRID_COLS.toNat ch)

/-- The middle buffer row after `draw_court`, as drawn. -/
def court_mid_row : List Char :=
  ['|'] ++ List.replicate 25 '-' ++ ['+'] ++ List.replicate 10 '-' ++ ['|'] ++
    List.replicate 9 '-' ++ ['+'] ++ List.replicate 24 '-' ++ ['|', ' ']

/-! ## The binary64 clock -/

theorem fl64_TIMEOUT : fl64 (TIMEOUT ℚ) = 8 := by decide!

theorem fl64_DT : fl64 (DT ℚ) = 5764607523034235 / 2 ^ 59 := by decide!

theorem clock_timeout_pos : (0 : ℚ) < fl64 (TIMEOUT ℚ) := by
  rw [fl64_TIMEOUT]
  norm_num

theorem clock_succ (k : Nat) : clock (k + 1) = fl64 (clock k + fl64 (DT ℚ)) := rfl

/-- What the count of `passes_until` says about the clock: if the walk from `clock j`
stops after `m` passes with fuel to spare, the clock is below `T` at `j, ..., j+m-1`
and not below `T` at `j + m`. -/
theorem passes_until_spec (T : ℚ) (fuel : Nat) :
    ∀ j m : Nat, passes_until T fuel (clock j) = m → m < fuel →
      (∀ k : Nat, k < m → clock (j + k) < T) ∧ ¬ clock (j + m) < T := by
  induction fuel with
  | zero =>
    intro j m _ hm
    omega
  | succ fuel ih =>
    intro j m h hm
    by_cases hc : clock j < T
    · have h1 : passes_until T (fuel + 1) (clock j) =
          passes_until T fuel (clock (j + 1)) + 1 := by
        show (if clock j < T then passes_until T fuel (fl64 (clock j + fl64 (DT ℚ))) + 1
          else 0) = _
        rw [if_pos hc, clock_succ]
      rw [h1] at h
      obtain ⟨ha, hb⟩ := ih (j + 1) (m - 1) (by omega) (by omega)
      refine ⟨?_, ?_⟩
      · intro k hk
        rcases Nat.eq_zero_or_pos k with h0 | hpos
        · rw [h0, Nat.add_zero]
          exact hc
        · have e : j + k = j + 1 + (k - 1) := by omega
          rw [e]
          exact ha (k - 1) (by omega)
      · have e : j + m = j + 1 + (m - 1) := by omega
        rw [e]
        exact hb
    · have h1 : passes_until T (fuel + 1) (clock j) = 0 := by
        show (if clock j < T then passes_until T fuel (fl64 (clock j + fl64 (DT ℚ))) + 1
          else 0) = _
        rw [if_neg hc]
      rw [h1] at h
      subst h
      refine ⟨fun k hk => absurd hk (Nat.not_lt_zero k), ?_⟩
      rw [Nat.add_zero]
      exact hc

/-- The clock walked from `0.0` is below `TIMEOUT` for exactly 801 passes: the sum of
800 copies of the binary64 value of `0.01` is rounded to `7.999999999999874`. -/
theorem passes_until_timeout : passes_until (fl64 (TIMEOUT ℚ)) 1000 (clock 0) = 801 := by
  decide!

theorem clock_lt_timeout (k : Nat) (hk : k ≤ 800) : clock k < fl64 (TIMEOUT ℚ) := by
  have h := (passes_until_spec (fl64 (TIMEOUT ℚ)) 1000 0 801 passes_until_timeout
    (by omega)).1 k (by omega)
  rwa [Nat.zero_add] at h

section LoopLemmas
variable {K : Type} [LinearOrderedField K]

theorem sim_loop_zero (mp : Int) (s : SimState K) :
    sim_loop mp 0 s = if loop_cond mp s then none else some (end_result Exit.loopEnd s) := by
  simp only [sim_loop]

theorem sim_loop_succ (mp : Int) (fuel : Nat) (s : SimState K) :
    sim_loop mp (fuel + 1) s =
      if loop_cond mp s then
        if (step s).z ≤ 0 then some (land_result (step s))
        else if out_of_bounds (step s) then some (end_result Exit.bounds (step s))
        else sim_loop mp fuel (step s)
      else some (end_result Exit.loopEnd s) := by
  simp only [sim_loop]
  norm_num

@[simp] theorem step_idx (s : SimState K) : (step s).idx = s.idx + 1 := rfl

/-- Invariant rule for the loop: `P` holds of the state at every loop head, `Q` of the
result, whichever way the function returns. -/
theorem sim_loop_rule (mp : Int) (P : SimState K → Prop) (Q : SimResult K → Prop)
    (hland : ∀ s, P s → loop_cond mp s → (step s).z ≤ 0 → Q (land_result (step s)))
    (hbreak : ∀ s, P s → loop_cond mp s → ¬ (step s).z ≤ 0 → out_of_bounds (step s) →
      Q (end_result Exit.bounds (step s)))
    (hcont : ∀ s, P s → loop_cond mp s → ¬ (step s).z ≤ 0 → ¬ out_of_bounds (step s) →
      P (step s))
    (hend : ∀ s, P s → ¬ loop_cond mp s → Q (end_result Exit.loopEnd s)) :
    ∀ (fuel : Nat) (s : SimState K) (r : SimResult K),
      P s → sim_loop mp fuel s = some r → Q r := by
  intro fuel
  induction fuel with
  | zero =>
    intro s r hP h
    rw [sim_loop_zero] at h
    by_cases hc : loop_cond mp s
    · rw [if_pos hc] at h
      exact absurd h (by simp)
    · rw [if_neg hc, Option.some.injEq] at h
      exact h ▸ hend s hP hc
  | succ fuel ih =>
    intro s r hP h
    rw [sim_loop_succ] at h
    by_cases hc : loop_cond mp s
    · rw [if_pos hc] at h
      by_cases hz : (step s).z ≤ 0
      · rw [if_pos hz, Option.some.injEq] at h
        exact h ▸ hland s hP hc hz
      · rw [if_neg hz] at h
        by_cases hb : out_of_bounds (step s)
        · rw [if_pos hb, Option.some.injEq] at h
          exact h ▸ hbreak s hP hc hz hb
        · rw [if_neg hb] at h
          exact ih (step s) r (hcont s hP hc hz hb) h
    · rw [if_neg hc, Option.some.injEq] at h
      exact h ▸ hend s hP hc

/-- The loop always returns when the fuel covers the points still allowed. -/
theorem sim_loop_returns (mp : Int) :
    ∀ (fuel : Nat) (s : SimState K), mp - s.idx ≤ fuel → ∃ r, sim_loop mp fuel s = some r := by
  intro fuel
  induction fuel with
  | zero =>
    intro s hf
    rw [sim_loop_zero]
    have hc : ¬ loop_cond mp s := by
      intro hc
      have := hc.2
      simp only [Nat.cast_zero] at hf
      omega
    rw [if_neg hc]
    exact ⟨_, rfl⟩
  | succ fuel ih =>
    intro s hf
    rw [sim_loop_succ]
    by_cases hc : loop_cond mp s
    · rw [if_pos hc]
      by_cases hz : (step s).z ≤ 0
      · rw [if_pos hz]
        exact ⟨_, rfl⟩
      · rw [if_neg hz]
        by_cases hb : out_of_bounds (step s)
        · rw [if_pos hb]
          exact ⟨_, rfl⟩
        · rw [if_neg hb]
          apply ih
          rw [step_idx]
          push_cast at hf
          omega
    · rw [if_neg hc]
      exact ⟨_, rfl⟩

/-- The function `simulate_trajectory` returns on every input. -/
theorem simulate_trajectory_returns (m : Libm K) (player_height : K) (posture : Int)
    (swing_speed tension_mult contact_offset : K) (shotType : Int) (yaw_deg : K)
    (traj : Int → Point3 K) (max_points : Int) :
    ∃ r, simulate_trajectory m player_height posture swing_speed tension_mult
      contact_offset shotType yaw_deg traj max_points = some r := by
  unfold simulate_trajectory
  apply sim_loop_returns
  have : (init_state m player_height posture swing_speed tension_mult contact_offset
      shotType yaw_deg traj).idx = 0 := rfl
  rw [this]
  have := Int.self_le_toNat max_points
  omega

end LoopLemmas

/-! ## Point count and buffer frame -/

section Count
variable {K : Type} [LinearOrderedField K]

theorem step_traj (s : SimState K) (i : Int) :
    (step s).traj i = if i = s.idx then (⟨s.y, s.xlat, s.z⟩ : Point3 K) else s.traj i := rfl

theorem TIMEOUT_pos : (0 : K) < TIMEOUT K := by norm_num [TIMEOUT]

theorem COURT_LENGTH_pos : (0 : K) < COURT_LENGTH K := by norm_num [COURT_LENGTH]

theorem COURT_WIDTH_pos : (0 : K) < COURT_WIDTH K := by norm_num [COURT_WIDTH]

theorem clamp_idem (v lo hi : K) (h : lo ≤ hi) :
    min (max (min (max v lo) hi) lo) hi = min (max v lo) hi := by
  rw [max_eq_left (le_min (le_max_right v lo) h), min_eq_left (min_le_right _ _)]


theorem init_state_idx (m : Libm K) (player_height : K) (posture : Int)
    (swing_speed tension_mult contact_offset : K) (shotType : Int) (yaw_deg : K)
    (traj : Int → Point3 K) :
    (init_state m player_height posture swing_speed tension_mult contact_offset
      shotType yaw_deg traj).idx = 0 := rfl

theorem init_state_t (m : Libm K) (player_height : K) (posture : Int)
    (swing_speed tension_mult contact_offset : K) (shotType : Int) (yaw_deg : K)
    (traj : Int → Point3 K) :
    (init_state m player_height posture swing_speed tension_mult contact_offset
      shotType yaw_deg traj).t = 0 := by
  show (0.0 : ℚ) = 0
  norm_num

theorem init_state_traj (m : Libm K) (player_height : K) (posture : Int)
    (swing_speed tension_mult contact_offset : K) (shotType : Int) (yaw_deg : K)
    (traj : Int → Point3 K) :
    (init_state m player_height posture swing_speed tension_mult contact_offset
      shotType yaw_deg traj).traj = traj := rfl

/-- Loop invariant behind the point count: the state is either the initial one (no
point stored, clock below the timeout) or at least one point has been stored; the
index never passes the cap, and the buffer is untouched outside `0 .. idx-1`. -/
theorem sim_loop_count (mp : Int) (hmp : 1 ≤ mp) (traj : Int → Point3 K) (fuel : Nat)
    (s : SimState K) (r : SimResult K)
    (h0 : s.idx = 0) (ht : s.t < fl64 (TIMEOUT ℚ)) (hbuf : s.traj = traj)
    (h : sim_loop mp fuel s = some r) :
    1 ≤ r.n ∧ r.n ≤ mp ∧ ∀ i : Int, (i < 0 ∨ r.n ≤ i) → r.traj i = traj i := by
  refine sim_loop_rule mp
    (fun s => ((s.idx = 0 ∧ s.t < fl64 (TIMEOUT ℚ)) ∨ 1 ≤ s.idx) ∧ 0 ≤ s.idx ∧ s.idx ≤ mp ∧
      ∀ i : Int, (i < 0 ∨ s.idx ≤ i) → s.traj i = traj i)
    (fun r => 1 ≤ r.n ∧ r.n ≤ mp ∧ ∀ i : Int, (i < 0 ∨ r.n ≤ i) → r.traj i = traj i)
    ?_ ?_ ?_ ?_ fuel s r ?_ h
  · rintro s ⟨-, hnn, -, hfr⟩ hc -
    have hlt := hc.2
    refine ⟨?_, ?_, ?_⟩
    · show 1 ≤ s.idx + 1
      omega
    · show s.idx + 1 ≤ mp
      omega
    · intro i hi
      show (step s).traj i = traj i
      have hi' : i < 0 ∨ s.idx + 1 ≤ i := hi
      rw [step_traj, if_neg (by omega)]
      exact hfr i (by omega)
  · rintro s ⟨-, hnn, -, hfr⟩ hc - -
    have hlt := hc.2
    refine ⟨?_, ?_, ?_⟩
    · show 1 ≤ s.idx + 1
      omega
    · show s.idx + 1 ≤ mp
      omega
    · intro i hi
      show (step s).traj i = traj i
      have hi' : i < 0 ∨ s.idx + 1 ≤ i := hi
      rw [step_traj, if_neg (by omega)]
      exact hfr i (by omega)
  · rintro s ⟨-, hnn, -, hfr⟩ hc - -
    have hlt := hc.2
    refine ⟨Or.inr ?_, ?_, ?_, ?_⟩
    · rw [step_idx]; omega
    · rw [step_idx]; omega
    · rw [step_idx]; omega
    · intro i hi
      rw [step_idx] at hi
      rw [step_traj, if_neg (by omega)]
      exact hfr i (by omega)
  · rintro s ⟨hinit, hnn, hle, hfr⟩ hc
    have h1 : 1 ≤ s.idx := by
      rcases hinit with ⟨hi0, hit⟩ | h1
      · exfalso
        apply hc
        exact ⟨hit, by omega⟩
      · exact h1
    exact ⟨h1, hle, hfr⟩
  · refine ⟨Or.inl ⟨h0, ht⟩, by omega, by omega, ?_⟩
    intro i _
    rw [hbuf]

end Count

/-- C1: for every choice of shot parameters and every `max_points ≥ 1`,
`simulate_trajectory` returns a point count `n` with `1 ≤ n ≤ max_points`, and the
caller's buffer is unchanged outside the indices `0 .. n-1`. -/
theorem simulate_trajectory_point_count {K : Type} [LinearOrderedField K]
    (m : Libm K) (player_height : K) (posture : Int)
    (swing_speed tension_mult contact_offset : K) (shotType : Int) (yaw_deg : K)
    (traj : Int → Point3 K) (max_points : Int) (hmp : 1 ≤ max_points) :
    ∃ r, simulate_trajectory m player_height posture swing_speed tension_mult
        contact_offset shotType yaw_deg traj max_points = some r ∧
      1 ≤ r.n ∧ r.n ≤ max_points ∧
      ∀ i : Int, (i < 0 ∨ r.n ≤ i) → r.traj i = traj i := by
  obtain ⟨r, hr⟩ := simulate_trajectory_returns m player_height posture swing_speed
    tension_mult contact_offset shotType yaw_deg traj max_points
  refine ⟨r, hr, ?_⟩
  unfold simulate_trajectory at hr
  refine sim_loop_count max_points hmp traj _ _ r (init_state_idx ..) ?_
    (init_state_traj ..) hr
  rw [init_state_t]
  exact clock_timeout_pos

theorem simulate_trajectory_point_count_witness :
    (1 : Int) ≤ 5 ∧
    ∃ r, simulate_trajectory libmQ 1.75 0 24 1 0 3 0 (zero_buf ℚ) 5 = some r ∧
      1 ≤ r.n ∧ r.n ≤ 5 ∧ ∀ i : Int, (i < 0 ∨ r.n ≤ i) → r.traj i = zero_buf ℚ i :=
  ⟨by decide, simulate_trajectory_point_count libmQ 1.75 0 24 1 0 3 0 (zero_buf ℚ) 5
    (by decide)⟩

/-! ## Landing height and exit path -/

section Landing
variable {K : Type} [LinearOrderedField K]

theorem sim_loop_landing_z (mp : Int) (hmp : 1 ≤ mp) (fuel : Nat)
    (s : SimState K) (r : SimResult K)
    (h0 : s.idx = 0) (ht : s.t < fl64 (TIMEOUT ℚ)) (h : sim_loop mp fuel s = some r) :
    (r.exit = Exit.landed → r.out_landing_z = 0) ∧
      (r.exit ≠ Exit.landed → 0 < r.out_landing_z) := by
  refine sim_loop_rule mp
    (fun s => (s.idx = 0 ∧ s.t < fl64 (TIMEOUT ℚ)) ∨ 0 < s.z)
    (fun r => (r.exit = Exit.landed → r.out_landing_z = 0) ∧
      (r.exit ≠ Exit.landed → 0 < r.out_landing_z))
    ?_ ?_ ?_ ?_ fuel s r (Or.inl ⟨h0, ht⟩) h
  · intro s _ _ _
    refine ⟨fun _ => ?_, fun hne => absurd rfl hne⟩
    show (0.0 : K) = 0
    norm_num
  · intro s _ _ hz _
    refine ⟨fun he => ?_, fun _ => lt_of_not_le hz⟩
    have he' : Exit.bounds = Exit.landed := he
    cases he' 
  · intro s _ _ hz _
    exact Or.inr (lt_of_not_le hz)
  · intro s hP hc
    rcases hP with ⟨hi0, hit⟩ | hpos
    · exfalso
      apply hc
      exact ⟨hit, by omega⟩
    · refine ⟨fun he => ?_, fun _ => hpos⟩
      have he' : Exit.loopEnd = Exit.landed := he
      cases he' 

end Landing

section Latch
variable {K : Type} [LinearOrderedField K]

theorem step_latched (s : SimState K) (h : s.net_checked = 1) :
    (step s).net_checked = 1 ∧ (step s).cleared = s.cleared := by
  have hne : ¬ (s.net_checked = 0 ∧ s.y ≥ NET_POS K) := by
    rintro ⟨h0, -⟩
    omega
  constructor
  · show (if s.net_checked = 0 ∧ s.y ≥ NET_POS K then 1 else s.net_checked) = 1
    rw [if_neg hne, h]
  · show (if s.net_checked = 0 ∧ s.y ≥ NET_POS K then
        (if s.z > NET_HEIGHT K + 0.02 then 1 else 0) else s.cleared) = s.cleared
    rw [if_neg hne]

theorem iter_latched (mp : Int) (s s' : SimState K)
    (hreach : Relation.ReflTransGen (Iter mp) s s') (h : s.net_checked = 1) :
    s'.net_checked = 1 ∧ s'.cleared = s.cleared := by
  induction hreach with
  | refl => exact ⟨h, rfl⟩
  | tail _ hstep ih =>
    obtain ⟨-, -, -, rfl⟩ := hstep
    have := step_latched _ ih.1
    exact ⟨this.1, this.2.trans ih.2⟩

/-- From a latched state on, the reported flag is the latched value. -/
theorem sim_loop_latched (mp : Int) (fuel : Nat) (s : SimState K) (r : SimResult K)
    (hl : s.net_checked = 1) (h : sim_loop mp fuel s = some r) :
    r.out_cleared_net = s.cleared := by
  refine sim_loop_rule mp
    (fun s' => s'.net_checked = 1 ∧ s'.cleared = s.cleared)
    (fun r => r.out_cleared_net = s.cleared)
    ?_ ?_ ?_ ?_ fuel s r ⟨hl, rfl⟩ h
  · rintro s' ⟨h1, h2⟩ _ _
    exact (step_latched s' h1).2.trans h2
  · rintro s' ⟨h1, h2⟩ _ _ _
    have hs := step_latched s' h1
    show (if (step s').net_checked ≠ 0 then (step s').cleared else 0) = s.cleared
    rw [if_pos (by rw [hs.1]; decide)]
    exact hs.2.trans h2
  · rintro s' ⟨h1, h2⟩ _ _ _
    have hs := step_latched s' h1
    exact ⟨hs.1, hs.2.trans h2⟩
  · rintro s' ⟨h1, h2⟩ _
    show (if s'.net_checked ≠ 0 then s'.cleared else 0) = s.cleared
    rw [if_pos (by rw [h1]; decide)]
    exact h2

/-- A run that reaches a loop head `s` by full iterations continues from there. -/
theorem sim_loop_of_iter (mp : Int) (s0 s : SimState K)
    (hreach : Relation.ReflTransGen (Iter mp) s0 s) :
    ∀ (fuel : Nat) (r : SimResult K), sim_loop mp fuel s0 = some r →
      ∃ fuel', sim_loop mp fuel' s = some r := by
  induction hreach with
  | refl => exact fun fuel r h => ⟨fuel, h⟩
  | tail _ hstep ih =>
    intro fuel r h
    obtain ⟨f1, h1⟩ := ih fuel r h
    obtain ⟨hc, hz, hb, rfl⟩ := hstep
    cases f1 with
    | zero =>
      rw [sim_loop_zero, if_pos hc] at h1
      exact absurd h1 (by simp)
    | succ f =>
      rw [sim_loop_succ, if_pos hc, if_neg hz, if_neg hb] at h1
      exact ⟨f, h1⟩

/-- The result of a run whose last executed iteration starts at loop head `s` with the
flag latched after that iteration's net check. -/
theorem sim_loop_reports_latch (mp : Int) (fuel : Nat) (s : SimState K) (r : SimResult K)
    (hc : loop_cond mp s) (hl : (step s).net_checked = 1)
    (h : sim_loop mp fuel s = some r) :
    r.out_cleared_net = (step s).cleared := by
  cases fuel with
  | zero =>
    rw [sim_loop_zero, if_pos hc] at h
    exact absurd h (by simp)
  | succ f =>
    rw [sim_loop_succ, if_pos hc] at h
    by_cases hz : (step s).z ≤ 0
    · rw [if_pos hz, Option.some.injEq] at h
      rw [← h]
      rfl
    · rw [if_neg hz] at h
      by_cases hb : out_of_bounds (step s)
      · rw [if_pos hb, Option.some.injEq] at h
        rw [← h]
        show (if (step s).net_checked ≠ 0 then (step s).cleared else 0) = (step s).cleared
        rw [if_pos (by rw [hl]; decide)]
      · rw [if_neg hb] at h
        exact sim_loop_latched mp f (step s) r hl h

end Latch

/-- C3: the net-clear flag is a latch.  (1) A pass through the loop body that starts
with `net_checked = 1` leaves `net_checked = 1` and `cleared` unchanged; (2) hence the
two flags are the same at every later loop head of the run; (3) in every run of
`simulate_trajectory`, if after the body executed from a loop head `s` of that run the
flag is latched, the reported `out_cleared_net` is that latched value. -/
theorem net_clear_flag_latched {K : Type} [LinearOrderedField K] (max_points : Int) :
    (∀ s : SimState K, s.net_checked = 1 →
      (step s).net_checked = 1 ∧ (step s).cleared = s.cleared) ∧
    (∀ s s' : SimState K, Relation.ReflTransGen (Iter max_points) s s' →
      s.net_checked = 1 → s'.net_checked = 1 ∧ s'.cleared = s.cleared) ∧
    (∀ (m : Libm K) (player_height : K) (posture : Int)
      (swing_speed tension_mult contact_offset : K) (shotType : Int) (yaw_deg : K)
      (traj : Int → Point3 K),
      ∃ r, simulate_trajectory m player_height posture swing_speed tension_mult
          contact_offset shotType yaw_deg traj max_points = some r ∧
        ∀ s : SimState K,
          Relation.ReflTransGen (Iter max_points)
            (init_state m player_height posture swing_speed tension_mult contact_offset
              shotType yaw_deg traj) s →
          loop_cond max_points s → (step s).net_checked = 1 →
          r.out_cleared_net = (step s).cleared) := by
  refine ⟨step_latched, fun s s' => iter_latched max_points s s', ?_⟩
  intro m player_height posture swing_speed tension_mult contact_offset shotType yaw_deg traj
  obtain ⟨r, hr⟩ := simulate_trajectory_returns m player_height posture swing_speed
    tension_mult contact_offset shotType yaw_deg traj max_points
  refine ⟨r, hr, ?_⟩
  intro s hreach hc hl
  unfold simulate_trajectory at hr
  obtain ⟨f, hf⟩ := sim_loop_of_iter max_points _ s hreach _ r hr
  exact sim_loop_reports_latch max_points f s r hc hl hf

theorem net_clear_flag_latched_witness :
    latched_state.net_checked = 1 ∧
      (step latched_state).net_checked = 1 ∧
      (step latched_state).cleared = latched_state.cleared :=
  ⟨rfl, (net_clear_flag_latched 20000).1 latched_state rfl⟩

/-! ## What the reported flag says about the recorded points -/

section NetFlag
variable {K : Type} [LinearOrderedField K]

theorem step_net_checked (s : SimState K) :
    (step s).net_checked = if s.net_checked = 0 ∧ s.y ≥ NET_POS K then 1 else s.net_checked :=
  rfl

theorem step_cleared (s : SimState K) :
    (step s).cleared = if s.net_checked = 0 ∧ s.y ≥ NET_POS K then
      (if s.z > NET_HEIGHT K + 0.02 then 1 else 0) else s.cleared :=
  rfl

theorem first_net_point_unique (traj : Int → Point3 K) (n i i' : Int)
    (h : first_net_point traj n i) (h' : first_net_point traj n i') : i = i' := by
  obtain ⟨h0, _, hy, hbefore⟩ := h
  obtain ⟨h0', _, hy', hbefore'⟩ := h'
  rcases lt_trichotomy i i' with hlt | heq | hgt
  · exact absurd hy (not_le.mpr (hbefore' i h0 hlt))
  · exact heq
  · exact absurd hy' (not_le.mpr (hbefore i' h0' hgt))

theorem flag_inv_step (s : SimState K) (h : flag_inv s) : flag_inv (step s) := by
  obtain ⟨hidx, hcase⟩ := h
  refine ⟨by rw [step_idx]; omega, ?_⟩
  rcases hcase with ⟨hnc, hcl, hbelow⟩ | ⟨hnc, i, hfirst, hcl⟩
  · by_cases hy : s.y ≥ NET_POS K
    · right
      have hl : s.net_checked = 0 ∧ s.y ≥ NET_POS K := ⟨hnc, hy⟩
      refine ⟨by rw [step_net_checked, if_pos hl], s.idx, ⟨hidx, ?_, ?_, ?_⟩, ?_⟩
      · rw [step_idx]; omega
      · rw [step_traj, if_pos rfl]
        exact hy
      · intro j hj0 hj
        rw [step_traj, if_neg (by omega)]
        exact hbelow j hj0 hj
      · rw [step_cleared, if_pos hl, step_traj, if_pos rfl]
    · left
      have hl : ¬ (s.net_checked = 0 ∧ s.y ≥ NET_POS K) := fun hl => hy hl.2
      refine ⟨by rw [step_net_checked, if_neg hl, hnc],
        by rw [step_cleared, if_neg hl, hcl], ?_⟩
      intro j hj0 hj
      rw [step_idx] at hj
      rw [step_traj]
      by_cases hji : j = s.idx
      · rw [if_pos hji]
        exact lt_of_not_le hy
      · rw [if_neg hji]
        exact hbelow j hj0 (by omega)
  · right
    have hs := step_latched s hnc
    obtain ⟨hi0, hin, hiy, hibefore⟩ := hfirst
    refine ⟨hs.1, i, ⟨hi0, ?_, ?_, ?_⟩, ?_⟩
    · rw [step_idx]; omega
    · rw [step_traj, if_neg (by omega)]
      exact hiy
    · intro j hj0 hj
      rw [step_traj, if_neg (by omega)]
      exact hibefore j hj0 hj
    · rw [hs.2, step_traj, if_neg (show ¬ i = s.idx by omega)]
      exact hcl

/-- What the invariant says about a reported flag value `f` that is either `cleared`
or `net_checked ? cleared : 0`. -/
theorem flag_inv_report (s : SimState K) (h : flag_inv s) (f : Int)
    (hf : f = s.cleared ∨ f = if s.net_checked ≠ 0 then s.cleared else 0) :
    (f = 1 ↔ ∃ i : Int, first_net_point s.traj s.idx i ∧
        (s.traj i).z > NET_HEIGHT K + 0.02) ∧
    ((∀ j : Int, 0 ≤ j → j < s.idx → (s.traj j).y < NET_POS K) → f = 0) := by
  obtain ⟨-, hcase⟩ := h
  rcases hcase with ⟨hnc, hcl, hbelow⟩ | ⟨hnc, i, hfirst, hcl⟩
  · have hf0 : f = 0 := by
      rcases hf with hf | hf
      · rw [hf, hcl]
      · rw [hf, if_neg (by rw [hnc]; decide)]
    refine ⟨⟨fun h1 => ?_, ?_⟩, fun _ => hf0⟩
    · rw [hf0] at h1
      exact absurd h1 (by decide)
    · rintro ⟨i, ⟨hi0, hin, hiy, -⟩, -⟩
      exact absurd hiy (not_le.mpr (hbelow i hi0 hin))
  · have hfc : f = s.cleared := by
      rcases hf with hf | hf
      · exact hf
      · rw [hf, if_pos (by rw [hnc]; decide)]
    refine ⟨⟨fun h1 => ⟨i, hfirst, ?_⟩, ?_⟩, fun hall => ?_⟩
    · by_contra hz
      rw [hfc, hcl, if_neg hz] at h1
      exact absurd h1 (by decide)
    · rintro ⟨i', hfirst', hz'⟩
      have := first_net_point_unique _ _ _ _ hfirst hfirst'
      subst this
      rw [hfc, hcl, if_pos hz']
    · obtain ⟨hi0, hin, hiy, -⟩ := hfirst
      exact absurd hiy (not_le.mpr (hall i hi0 hin))

theorem sim_loop_flag (mp : Int) (fuel : Nat) (s : SimState K) (r : SimResult K)
    (hs : flag_inv s) (h : sim_loop mp fuel s = some r) :
    (r.out_cleared_net = 1 ↔ ∃ i : Int, first_net_point r.traj r.n i ∧
        (r.traj i).z > NET_HEIGHT K + 0.02) ∧
    ((∀ j : Int, 0 ≤ j → j < r.n → (r.traj j).y < NET_POS K) → r.out_cleared_net = 0) := by
  refine sim_loop_rule mp flag_inv
    (fun r => (r.out_cleared_net = 1 ↔ ∃ i : Int, first_net_point r.traj r.n i ∧
        (r.traj i).z > NET_HEIGHT K + 0.02) ∧
      ((∀ j : Int, 0 ≤ j → j < r.n → (r.traj j).y < NET_POS K) → r.out_cleared_net = 0))
    ?_ ?_ ?_ ?_ fuel s r hs h
  · intro s hP _ _
    exact flag_inv_report (step s) (flag_inv_step s hP) _ (Or.inl rfl)
  · intro s hP _ _ _
    exact flag_inv_report (step s) (flag_inv_step s hP) _ (Or.inr rfl)
  · intro s hP _ _ _
    exact flag_inv_step s hP
  · intro s hP _
    exact flag_inv_report s hP _ (Or.inr rfl)

end NetFlag

/-- C4: in every run of `simulate_trajectory` the reported cleared-net flag is `1` if
and only if some recorded point has forward distance `y ≥ NET_POS` and the first such
recorded point has height `z > NET_HEIGHT + 0.02`; in particular the flag is `0` when
no recorded point reaches the net position. -/
theorem cleared_flag_iff_first_net_point {K : Type} [LinearOrderedField K]
    (m : Libm K) (player_height : K) (posture : Int)
    (swing_speed tension_mult contact_offset : K) (shotType : Int) (yaw_deg : K)
    (traj : Int → Point3 K) (max_points : Int) :
    ∃ r, simulate_trajectory m player_height posture swing_speed tension_mult
        contact_offset shotType yaw_deg traj max_points = some r ∧
      (r.out_cleared_net = 1 ↔ ∃ i : Int, first_net_point r.traj r.n i ∧
        (r.traj i).z > NET_HEIGHT K + 0.02) ∧
      ((∀ j : Int, 0 ≤ j → j < r.n → (r.traj j).y < NET_POS K) →
        r.out_cleared_net = 0) := by
  obtain ⟨r, hr⟩ := simulate_trajectory_returns m player_height posture swing_speed
    tension_mult contact_offset shotType yaw_deg traj max_points
  refine ⟨r, hr, ?_⟩
  unfold simulate_trajectory at hr
  refine sim_loop_flag max_points _ _ r ?_ hr
  refine ⟨le_of_eq (init_state_idx ..).symm, Or.inl ⟨rfl, rfl, ?_⟩⟩
  intro j hj0 hj
  rw [init_state_idx] at hj
  omega

/-! ## Zero yaw -/

section Yaw
variable {K : Type} [LinearOrderedField K]

theorem step_xlat_zero (s : SimState K) (hx : s.xlat = 0) (hv : s.vx = 0) :
    (step s).xlat = 0 ∧ (step s).vx = 0 := by
  have hvx : (step s).vx = s.vx + -DRAG K * s.vx * DT K := rfl
  have hxl : (step s).xlat = s.xlat + (s.vx + -DRAG K * s.vx * DT K) * DT K := rfl
  rw [hvx, hxl, hx, hv]
  constructor <;> ring

end Yaw

section Launch
variable {K : Type} [LinearOrderedField K]

theorem clampd_eq (v lo hi : K) (h : lo ≤ hi) : clampd v lo hi = min (max v lo) hi := by
  unfold clampd
  by_cases h1 : v < lo
  · rw [if_pos h1, max_eq_right (le_of_lt h1), min_eq_left h]
  · rw [if_neg h1, max_eq_left (not_lt.mp h1)]
    by_cases h2 : v > hi
    · rw [if_pos h2, min_eq_right (le_of_lt h2)]
    · rw [if_neg h2, min_eq_left (not_lt.mp h2)]

theorem launch_speed_eq (sw tm co sm : K) :
    launch_speed sw tm co sm =
      max 2 (sw * sm * tm * (1 - min (max (co / 0.03) 0) 0.4)) := by
  have hc : clampd (co / 0.03) (0.0 : K) 0.4 = min (max (co / 0.03) 0) 0.4 := by
    rw [clampd_eq _ _ _ (by norm_num)]
    norm_num
  show (if sw * sm * tm * (1.0 - clampd (co / 0.03) 0.0 0.4) < 2.0 then (2.0 : K)
    else sw * sm * tm * (1.0 - clampd (co / 0.03) 0.0 0.4)) = _
  rw [hc]
  have h1 : (1.0 : K) = 1 := by norm_num
  have h2 : (2.0 : K) = 2 := by norm_num
  rw [h1, h2]
  by_cases h : sw * sm * tm * (1 - min (max (co / 0.03) 0) 0.4) < 2
  · rw [if_pos h, max_eq_left (le_of_lt h)]
  · rw [if_neg h, max_eq_right (not_lt.mp h)]

end Launch

section MappingLemmas
variable {K : Type} [LinearOrderedField K] [FloorRing K]

/-- The two `if`s of `mapYtoCol` are a clamp to `[0, COURT_LENGTH]`. -/
theorem mapYtoCol_eq (y : K) :
    mapYtoCol y =
      c_round ((min (max y 0) (COURT_LENGTH K) / COURT_LENGTH K) *
        ((GRID_COLS - 1 : Int) : K)) := by
  have hL : (0 : K) < COURT_LENGTH K := COURT_LENGTH_pos
  have hcl : (if (if y < 0 then 0 else y) > COURT_LENGTH K then COURT_LENGTH K
      else (if y < 0 then 0 else y)) = min (max y 0) (COURT_LENGTH K) := by
    by_cases h1 : y < 0
    · rw [if_pos h1, if_neg (not_lt.mpr (le_of_lt hL)), max_eq_right (le_of_lt h1),
        min_eq_left (le_of_lt hL)]
    · rw [if_neg h1, max_eq_left (not_lt.mp h1)]
      by_cases h2 : y > COURT_LENGTH K
      · rw [if_pos h2, min_eq_right (le_of_lt h2)]
      · rw [if_neg h2, min_eq_left (not_lt.mp h2)]
  show c_round (((if (if y < 0 then 0 else y) > COURT_LENGTH K then COURT_LENGTH K
      else (if y < 0 then 0 else y)) / COURT_LENGTH K) * ((GRID_COLS - 1 : Int) : K)) = _
  rw [hcl]

/-- The two `if`s of `mapXtoRow` are a clamp to `[-COURT_WIDTH/2, COURT_WIDTH/2]`. -/
theorem mapXtoRow_eq (x : K) :
    mapXtoRow x =
      c_round (((min (max x (-(COURT_WIDTH K / 2))) (COURT_WIDTH K / 2) +
        COURT_WIDTH K / 2) / COURT_WIDTH K) * ((GRID_ROWS - 1 : Int) : K)) := by
  have hW : (0 : K) < COURT_WIDTH K := COURT_WIDTH_pos
  have h2 : (2.0 : K) = 2 := by norm_num
  have hh : (0 : K) < COURT_WIDTH K / 2 := by positivity
  have hcl : (if (if x < -(COURT_WIDTH K / 2) then -(COURT_WIDTH K / 2) else x) >
        COURT_WIDTH K / 2 then COURT_WIDTH K / 2
      else (if x < -(COURT_WIDTH K / 2) then -(COURT_WIDTH K / 2) else x)) =
      min (max x (-(COURT_WIDTH K / 2))) (COURT_WIDTH K / 2) := by
    by_cases h1 : x < -(COURT_WIDTH K / 2)
    · rw [if_pos h1, if_neg (by linarith), max_eq_right (le_of_lt h1),
        min_eq_left (by linarith)]
    · rw [if_neg h1, max_eq_left (not_lt.mp h1)]
      by_cases h3 : x > COURT_WIDTH K / 2
      · rw [if_pos h3, min_eq_right (le_of_lt h3)]
      · rw [if_neg h3, min_eq_left (not_lt.mp h3)]
  show c_round ((((if (if x < -(COURT_WIDTH K / 2.0) then -(COURT_WIDTH K / 2.0) else x) >
        COURT_WIDTH K / 2.0 then COURT_WIDTH K / 2.0
      else (if x < -(COURT_WIDTH K / 2.0) then -(COURT_WIDTH K / 2.0) else x)) +
      COURT_WIDTH K / 2.0) / COURT_WIDTH K) * ((GRID_ROWS - 1 : Int) : K)) = _
  rw [h2, hcl]

end MappingLemmas

/-- C7: the grid mapping is invariant under clamping.  For every `y`,
`mapYtoCol y = mapYtoCol (min (max y 0) COURT_LENGTH)`, so every `y < 0` maps to the
column of `0` and every `y > 13.40` to the column of `13.40`; and for every `x`,
`mapXtoRow x = mapXtoRow (min (max x (-COURT_WIDTH/2)) (COURT_WIDTH/2))`. -/
theorem map_invariant_under_clamping {K : Type} [LinearOrderedField K] [FloorRing K] :
    (∀ y : K, mapYtoCol y = mapYtoCol (min (max y 0) (COURT_LENGTH K))) ∧
    (∀ y : K, y < 0 → mapYtoCol y = mapYtoCol (0 : K)) ∧
    (∀ y : K, y > 13.40 → mapYtoCol y = mapYtoCol (13.40 : K)) ∧
    (∀ x : K, mapXtoRow x =
      mapXtoRow (min (max x (-(COURT_WIDTH K / 2))) (COURT_WIDTH K / 2))) := by
  have hL : (0 : K) ≤ COURT_LENGTH K := le_of_lt COURT_LENGTH_pos
  have hW : -(COURT_WIDTH K / 2) ≤ COURT_WIDTH K / 2 := by
    have hpos : (0 : K) < COURT_WIDTH K := COURT_WIDTH_pos
    linarith
  have hy : ∀ y : K, mapYtoCol y = mapYtoCol (min (max y 0) (COURT_LENGTH K)) := by
    intro y
    rw [mapYtoCol_eq y, mapYtoCol_eq (min (max y 0) (COURT_LENGTH K)), clamp_idem _ _ _ hL]
  refine ⟨hy, ?_, ?_, ?_⟩
  · intro y hneg
    rw [hy y, hy 0, max_eq_right (le_of_lt hneg), max_self]
  · intro y hbig
    have hLeq : (13.40 : K) = COURT_LENGTH K := rfl
    rw [hLeq] at hbig ⊢
    rw [hy y, hy (COURT_LENGTH K), max_eq_left (le_trans hL (le_of_lt hbig)),
      min_eq_right (le_of_lt hbig), max_eq_left hL, min_self]
  · intro x
    rw [mapXtoRow_eq x, mapXtoRow_eq (min (max x (-(COURT_WIDTH K / 2))) (COURT_WIDTH K / 2)),
      clamp_idem _ _ _ hW]

theorem map_invariant_under_clamping_witness :
    (-3 : ℚ) < 0 ∧ mapYtoCol (-3 : ℚ) = mapYtoCol (0 : ℚ) :=
  ⟨by norm_num, map_invariant_under_clamping.2.1 (-3) (by norm_num)⟩

/-! ## The end-to-end drive scenario -/

theorem drive_facts : ∀ k : Nat, k ≤ 66 →
    0 ≤ (euler_coef k).a ∧ 288 / 10 * (euler_coef k).a ≤ 214 / 10 ∧
    (288 / 10 * (euler_coef k).a < 67 / 10 ∨ drive_z_hi k ≤ 1544 / 1000) ∧
    (1 ≤ k → k ≤ 65 → 0 < drive_z_lo k) := by
  decide!

theorem drive_facts_end (j : Nat) (hj : j = 66) :
    drive_z_hi j ≤ 0 ∧ 15 ≤ 288 / 10 * (999 / 1000) * (euler_coef j).a ∧
      288 / 10 * (euler_coef j).a ≤ 20 := by
  subst hj
  decide!

section Drive
variable {K : Type} [LinearOrderedField K]

theorem cast_DRAG : ((DRAG ℚ : ℚ) : K) = DRAG K := by simp [DRAG]
theorem cast_DT : ((DT ℚ : ℚ) : K) = DT K := by norm_num [DT]
theorem cast_GRAVITY : ((GRAVITY ℚ : ℚ) : K) = GRAVITY K := by simp [GRAVITY]

/-- One Euler update moves the closed form from `k` to `k + 1`. -/
theorem step_closed_form (vy0 vz0 z0 : K) (k : Nat) (s : SimState K)
    (hy : s.y = vy0 * (euler_coef k).a) (hvy : s.vy = vy0 * (euler_coef k).p)
    (hz : s.z = z0 + vz0 * (euler_coef k).a - (euler_coef k).g)
    (hvz : s.vz = vz0 * (euler_coef k).p - (euler_coef k).h) :
    (step s).y = vy0 * (euler_coef (k + 1)).a ∧
    (step s).vy = vy0 * (euler_coef (k + 1)).p ∧
    (step s).z = z0 + vz0 * (euler_coef (k + 1)).a - (euler_coef (k + 1)).g ∧
    (step s).vz = vz0 * (euler_coef (k + 1)).p - (euler_coef (k + 1)).h := by
  have e1 : (step s).vy = s.vy + -DRAG K * s.vy * DT K := rfl
  have e2 : (step s).y = s.y + (s.vy + -DRAG K * s.vy * DT K) * DT K := rfl
  have e3 : (step s).vz = s.vz + (-GRAVITY K - DRAG K * s.vz) * DT K := rfl
  have e4 : (step s).z = s.z + (s.vz + (-GRAVITY K - DRAG K * s.vz) * DT K) * DT K := rfl
  rw [e1, e2, e3, e4, hy, hvy, hz, hvz]
  simp only [euler_coef]
  push_cast
  rw [cast_DRAG, cast_DT, cast_GRAVITY]
  refine ⟨?_, ?_, ?_, ?_⟩ <;> ring

theorem drive_facts_cast (k : Nat) (hk : k ≤ 66) :
    (0 : K) ≤ (euler_coef k).a ∧ (288 / 10 : K) * (euler_coef k).a ≤ 214 / 10 ∧
    ((288 / 10 : K) * (euler_coef k).a < 67 / 10 ∨
      (14875 / 10000 : K) + 288 / 10 * (350 / 10000) * (euler_coef k).a - (euler_coef k).g
        ≤ 1544 / 1000) ∧
    (1 ≤ k → k ≤ 65 →
      (0 : K) < 14875 / 10000 + 288 / 10 * (348 / 10000) * (euler_coef k).a -
        (euler_coef k).g) := by
  obtain ⟨h1, h2, h3, h4⟩ := drive_facts k hk
  unfold drive_z_hi at h3
  unfold drive_z_lo at h4
  refine ⟨?_, ?_, ?_, ?_⟩
  · have := (Rat.cast_le (K := K)).mpr h1
    push_cast at this
    exact this
  · have := (Rat.cast_le (K := K)).mpr h2
    push_cast at this
    exact this
  · rcases h3 with h3 | h3
    · left
      have := (Rat.cast_lt (K := K)).mpr h3
      push_cast at this
      exact this
    · right
      have := (Rat.cast_le (K := K)).mpr h3
      push_cast at this
      exact this
  · intro hk1 hk65
    have := (Rat.cast_lt (K := K)).mpr (h4 hk1 hk65)
    push_cast at this
    exact this

theorem drive_facts_end_cast (j : Nat) (hj : j = 66) :
    (14875 / 10000 : K) + 288 / 10 * (350 / 10000) * (euler_coef j).a - (euler_coef j).g ≤ 0 ∧
    (15 : K) ≤ 288 / 10 * (999 / 1000) * (euler_coef j).a ∧
    (288 / 10 : K) * (euler_coef j).a ≤ 20 := by
  obtain ⟨h1, h2, h3⟩ := drive_facts_end j hj
  unfold drive_z_hi at h1
  refine ⟨?_, ?_, ?_⟩
  · have := (Rat.cast_le (K := K)).mpr h1
    push_cast at this
    exact this
  · have := (Rat.cast_le (K := K)).mpr h2
    push_cast at this
    exact this
  · have := (Rat.cast_le (K := K)).mpr h3
    push_cast at this
    exact this

theorem drive_loop_cond (c sn : K) (s : SimState K) (h : drive_inv c sn s) :
    loop_cond 20000 s := by
  obtain ⟨k, hk, hidx, ht, -⟩ := h
  constructor
  · rw [ht]
    exact clock_lt_timeout k (by omega)
  · rw [hidx]
    omega

theorem scale_le (x y a : K) (h : x ≤ y) (ha : 0 ≤ a) :
    288 / 10 * x * a ≤ 288 / 10 * y * a := by
  apply mul_le_mul_of_nonneg_right _ ha
  linarith

set_option maxHeartbeats 1000000 in
/-- The body of the loop run from a drive state: the stored flag stays `0`, the state
after the update is in closed form at `k + 1`, inside the bounds, and its height is
positive exactly when `k + 1 ≤ 65`. -/
theorem drive_step (c sn : K) (hc1 : 999 / 1000 ≤ c) (hc2 : c ≤ 1)
    (hs1 : 348 / 10000 ≤ sn) (hs2 : sn ≤ 350 / 10000)
    (s : SimState K) (k : Nat) (hk : k ≤ 65) (hidx : s.idx = k) (ht : s.t = clock k)
    (hx : s.xlat = 0) (hvx : s.vx = 0) (hcl : s.cleared = 0)
    (hy : s.y = 288 / 10 * c * (euler_coef k).a)
    (hvy : s.vy = 288 / 10 * c * (euler_coef k).p)
    (hz : s.z = 14875 / 10000 + 288 / 10 * sn * (euler_coef k).a - (euler_coef k).g)
    (hvz : s.vz = 288 / 10 * sn * (euler_coef k).p - (euler_coef k).h) :
    (step s).cleared = 0 ∧ (step s).idx = (k + 1 : Nat) ∧ (step s).t = clock (k + 1) ∧
    (step s).xlat = 0 ∧ (step s).vx = 0 ∧ ¬ out_of_bounds (step s) ∧
    (step s).y = 288 / 10 * c * (euler_coef (k + 1)).a ∧
    (step s).vy = 288 / 10 * c * (euler_coef (k + 1)).p ∧
    (step s).z = 14875 / 10000 + 288 / 10 * sn * (euler_coef (k + 1)).a -
      (euler_coef (k + 1)).g ∧
    (step s).vz = 288 / 10 * sn * (euler_coef (k + 1)).p - (euler_coef (k + 1)).h ∧
    (k + 1 ≤ 65 → 0 < (step s).z) ∧
    (k + 1 = 66 → (step s).z ≤ 0 ∧ 15 ≤ (step s).y ∧ (step s).y ≤ 20) := by
  obtain ⟨ha, -, hnet, -⟩ := drive_facts_cast (K := K) k (by omega)
  obtain ⟨ha', hyup, -, hzlo⟩ := drive_facts_cast (K := K) (k + 1) (by omega)
  obtain ⟨f1, f2, f3, f4⟩ :=
    step_closed_form (288 / 10 * c) (288 / 10 * sn) (14875 / 10000) k s hy hvy hz hvz
  have hxz := step_xlat_zero s hx hvx
  have hcn : (0 : K) ≤ c := le_trans (by norm_num) hc1
  refine ⟨?_, ?_, ?_, hxz.1, hxz.2, ?_, f1, f2, f3, f4, ?_, ?_⟩
  · rw [step_cleared]
    by_cases hl : s.net_checked = 0 ∧ s.y ≥ NET_POS K
    · rw [if_pos hl]
      have hnp : NET_POS K = 67 / 10 := by norm_num [NET_POS, COURT_LENGTH]
      have hnh : NET_HEIGHT K + 0.02 = 1544 / 1000 := by norm_num [NET_HEIGHT]
      have hge := hl.2
      rw [hnp, hy] at hge
      have hzle : ¬ s.z > NET_HEIGHT K + 0.02 := by
        rw [hnh, hz, not_lt]
        rcases hnet with hlt | hle
        · exfalso
          have := scale_le c 1 _ hc2 ha
          linarith
        · have := scale_le sn (350 / 10000) _ hs2 ha
          linarith
      rw [if_neg hzle]
    · rw [if_neg hl, hcl]
  · rw [step_idx, hidx]
    push_cast
    rfl
  · show fl64 (s.t + fl64 (DT ℚ)) = _
    rw [ht, clock_succ]
  · have hcl8 : COURT_LENGTH K + 8.0 = 214 / 10 := by norm_num [COURT_LENGTH]
    have hcw : (0 : K) ≤ COURT_WIDTH K + 5.0 := by norm_num [COURT_WIDTH]
    rintro (hb | hb)
    · rw [hcl8, f1] at hb
      have := scale_le c 1 _ hc2 ha'
      linarith
    · rw [hxz.1, abs_zero] at hb
      exact absurd hb (not_lt.mpr hcw)
  · intro hk1
    have h0 := hzlo (by omega) hk1
    rw [f3]
    have := scale_le (348 / 10000) sn _ hs1 ha'
    linarith
  · intro hk1
    obtain ⟨e1, e2, e3⟩ := drive_facts_end_cast (K := K) (k + 1) hk1
    rw [f1, f3]
    clear hk1 hzlo hnet
    refine ⟨?_, ?_, ?_⟩
    · have := scale_le sn (350 / 10000) _ hs2 ha'
      linarith
    · exact le_trans e2 (scale_le (999 / 1000) c _ hc1 ha')
    · have := scale_le c 1 _ hc2 ha'
      rw [mul_one] at this
      exact le_trans this e3

/-- The run of the loop from the first drive state. -/
theorem drive_run (c sn : K) (hc1 : 999 / 1000 ≤ c) (hc2 : c ≤ 1)
    (hs1 : 348 / 10000 ≤ sn) (hs2 : sn ≤ 350 / 10000)
    (fuel : Nat) (s : SimState K) (r : SimResult K) (hs : drive_inv c sn s)
    (h : sim_loop 20000 fuel s = some r) :
    r.exit = Exit.landed ∧ r.n = 66 ∧ r.out_landing_z = 0 ∧
      15 ≤ r.out_landing_y ∧ r.out_landing_y ≤ 20 ∧ r.out_cleared_net = 0 := by
  refine sim_loop_rule 20000 (drive_inv c sn)
    (fun r => r.exit = Exit.landed ∧ r.n = 66 ∧ r.out_landing_z = 0 ∧
      15 ≤ r.out_landing_y ∧ r.out_landing_y ≤ 20 ∧ r.out_cleared_net = 0)
    ?_ ?_ ?_ ?_ fuel s r hs h
  · rintro s ⟨k, hk, hidx, ht, hx, hvx, hcl, hy, hvy, hz, hvz⟩ _ hland
    obtain ⟨g1, g2, -, -, -, -, -, -, -, -, g3, g4⟩ :=
      drive_step c sn hc1 hc2 hs1 hs2 s k hk hidx ht hx hvx hcl hy hvy hz hvz
    have hk66 : k + 1 = 66 := by
      by_contra hne
      exact absurd hland (not_le.mpr (g3 (by omega)))
    obtain ⟨-, g5, g6⟩ := g4 hk66
    refine ⟨rfl, ?_, ?_, g5, g6, g1⟩
    · show (step s).idx = 66
      rw [g2, hk66]
      rfl
    · show (0.0 : K) = 0
      norm_num
  · rintro s ⟨k, hk, hidx, ht, hx, hvx, hcl, hy, hvy, hz, hvz⟩ _ _ hb
    obtain ⟨-, -, -, -, -, g, -⟩ :=
      drive_step c sn hc1 hc2 hs1 hs2 s k hk hidx ht hx hvx hcl hy hvy hz hvz
    exact absurd hb g
  · rintro s ⟨k, hk, hidx, ht, hx, hvx, hcl, hy, hvy, hz, hvz⟩ _ hnl _
    obtain ⟨g1, g2, g3, g4, g5, -, g6, g7, g8, g9, -, g10⟩ :=
      drive_step c sn hc1 hc2 hs1 hs2 s k hk hidx ht hx hvx hcl hy hvy hz hvz
    have hk1 : k + 1 ≤ 65 := by
      by_contra hne
      exact hnl (g10 (by omega)).1
    exact ⟨k + 1, hk1, g2, g3, g4, g5, g1, g6, g7, g8, g9⟩
  · intro s hP hnc
    exact absurd (drive_loop_cond c sn s hP) hnc

theorem drive_init (m : Libm K) (hcos0 : m.cos 0 = 1) (hsin0 : m.sin 0 = 0)
    (traj : Int → Point3 K) :
    drive_inv (m.cos (2.0 * M_PI K / 180.0)) (m.sin (2.0 * M_PI K / 180.0))
      (init_state m 1.75 0 24 1.0 0.0 3 0 traj) := by
  have hv : launch_speed (24 : K) 1.0 0.0 (shot_params 3 : K × K × K).2.1 = 288 / 10 := by
    rw [launch_speed_eq]
    have hsp : (shot_params 3 : K × K × K).2.1 = 1.2 := by
      simp [shot_params]
    rw [hsp]
    norm_num
  have he : (shot_params 3 : K × K × K).1 = 2.0 := by
    simp [shot_params]
  have hyaw : (0 : K) * M_PI K / 180.0 = 0 := by rw [zero_mul, zero_div]
  refine ⟨0, by omega, rfl, rfl, ?_, ?_, rfl, ?_, ?_, ?_, ?_⟩
  · show (0.0 : K) = 0
    norm_num
  · show launch_speed (24 : K) 1.0 0.0 (shot_params 3 : K × K × K).2.1 *
        m.cos ((shot_params 3 : K × K × K).1 * M_PI K / 180.0) *
        m.sin (0 * M_PI K / 180.0) = 0
    rw [hyaw, hsin0, mul_zero]
  · show (0.0 : K) = _
    simp only [euler_coef]
    norm_num
  · show launch_speed (24 : K) 1.0 0.0 (shot_params 3 : K × K × K).2.1 *
        m.cos ((shot_params 3 : K × K × K).1 * M_PI K / 180.0) *
        m.cos (0 * M_PI K / 180.0) = _
    rw [hyaw, hcos0, hv, he]
    simp [euler_coef]
  · show contact_height (1.75 : K) 0 = _
    simp only [euler_coef, contact_height]
    norm_num
  · show launch_speed (24 : K) 1.0 0.0 (shot_params 3 : K × K × K).2.1 *
        m.sin ((shot_params 3 : K × K × K).1 * M_PI K / 180.0) = _
    rw [hv, he]
    simp [euler_coef]

/-- The drive scenario in any ordered field, for any math library that is exact at `0`
and accurate to the third decimal at the launch angle. -/
theorem drive_scenario (m : Libm K) (hcos0 : m.cos 0 = 1) (hsin0 : m.sin 0 = 0)
    (hc1 : 0.999 ≤ m.cos (2.0 * M_PI K / 180.0)) (hc2 : m.cos (2.0 * M_PI K / 180.0) ≤ 1)
    (hs1 : 0.0348 ≤ m.sin (2.0 * M_PI K / 180.0))
    (hs2 : m.sin (2.0 * M_PI K / 180.0) ≤ 0.0350)
    (traj : Int → Point3 K) :
    ∃ r, simulate_trajectory m 1.75 0 24 1.0 0.0 3 0 traj MAX_STEPS = some r ∧
      r.exit = Exit.landed ∧ r.n = 66 ∧ r.out_landing_z = 0 ∧
      15 ≤ r.out_landing_y ∧ r.out_landing_y ≤ 20 ∧ r.out_cleared_net = 0 := by
  obtain ⟨r, hr⟩ := simulate_trajectory_returns m 1.75 0 24 1.0 0.0 3 0 traj MAX_STEPS
  refine ⟨r, hr, ?_⟩
  unfold simulate_trajectory at hr
  have hM : MAX_STEPS = 20000 := rfl
  rw [hM] at hr
  refine drive_run _ _ ?_ hc2 ?_ ?_ _ _ r (drive_init m hcos0 hsin0 traj) hr
  · norm_num at hc1 ⊢
    exact hc1
  · norm_num at hs1 ⊢
    exact hs1
  · norm_num at hs2 ⊢
    exact hs2

end Drive

theorem real_launch_angle :
    0 < 2.0 * M_PI ℝ / 180.0 ∧ 2.0 * M_PI ℝ / 180.0 ≤ 1 ∧
    (349 / 10000 : ℝ) ≤ 2.0 * M_PI ℝ / 180.0 ∧ 2.0 * M_PI ℝ / 180.0 ≤ 3491 / 100000 := by
  unfold M_PI
  norm_num

theorem real_cos_launch :
    (0.999 : ℝ) ≤ Real.cos (2.0 * M_PI ℝ / 180.0) ∧ Real.cos (2.0 * M_PI ℝ / 180.0) ≤ 1 := by
  obtain ⟨h0, h1, hlo, hhi⟩ := real_launch_angle
  refine ⟨?_, Real.cos_le_one _⟩
  have h := Real.one_sub_sq_div_two_le_cos (x := 2.0 * M_PI ℝ / 180.0)
  generalize 2.0 * M_PI ℝ / 180.0 = x at *
  have : x ^ 2 ≤ (3491 / 100000) ^ 2 := by
    exact pow_le_pow_left₀ (le_of_lt h0) hhi _
  norm_num at this ⊢
  linarith

theorem real_sin_launch :
    (0.0348 : ℝ) ≤ Real.sin (2.0 * M_PI ℝ / 180.0) ∧
      Real.sin (2.0 * M_PI ℝ / 180.0) ≤ 0.0350 := by
  obtain ⟨h0, h1, hlo, hhi⟩ := real_launch_angle
  have hlt := Real.sin_lt h0
  have hgt := Real.sin_gt_sub_cube h0 h1
  generalize 2.0 * M_PI ℝ / 180.0 = x at *
  have h3 : x ^ 3 ≤ (3491 / 100000) ^ 3 := by
    exact pow_le_pow_left₀ (le_of_lt h0) hhi _
  constructor
  · norm_num at h3 ⊢
    linarith
  · norm_num
    linarith

theorem drive_scenario_real :
    ∃ r, simulate_trajectory (⟨Real.cos, Real.sin⟩ : Libm ℝ) 1.75 0 24 1.0 0.0 3 0
        (zero_buf ℝ) MAX_STEPS = some r ∧
      r.exit = Exit.landed ∧ r.n = 66 ∧ r.out_landing_z = 0 ∧
      15 ≤ r.out_landing_y ∧ r.out_landing_y ≤ 20 ∧ r.out_cleared_net = 0 :=
  drive_scenario ⟨Real.cos, Real.sin⟩ Real.cos_zero Real.sin_zero real_cos_launch.1
    real_cos_launch.2 real_sin_launch.1 real_sin_launch.2 (zero_buf ℝ)


/-- C8 (counterexample): in the end-to-end scenario, in real arithmetic with the real
cosine and sine, `simulate_trajectory` returns and the reported cleared-net flag is not
`1`. -/
theorem drive_scenario_not_cleared_real :
    ∃ r, simulate_trajectory (⟨Real.cos, Real.sin⟩ : Libm ℝ) 1.75 0 24 1.0 0.0 3 0
        (zero_buf ℝ) MAX_STEPS = some r ∧ r.out_cleared_net ≠ 1 := by
  obtain ⟨r, hr, -, -, -, -, -, hcl⟩ := drive_scenario_real
  refine ⟨r, hr, ?_⟩
  rw [hcl]
  decide

/-- C8 (amended): in the end-to-end scenario (player height 1.75, standing, swing speed
24, tension 1.0, offset 0.0, drive, yaw 0, `max_points = MAX_STEPS`), for every math
library that is exact at `0` and accurate to the third decimal at the launch angle,
`simulate_trajectory` reports cleared-net `0`. -/
theorem drive_scenario_net_not_cleared {K : Type} [LinearOrderedField K]
    (m : Libm K) (hcos0 : m.cos 0 = 1) (hsin0 : m.sin 0 = 0)
    (hc1 : 0.999 ≤ m.cos (2.0 * M_PI K / 180.0)) (hc2 : m.cos (2.0 * M_PI K / 180.0) ≤ 1)
    (hs1 : 0.0348 ≤ m.sin (2.0 * M_PI K / 180.0))
    (hs2 : m.sin (2.0 * M_PI K / 180.0) ≤ 0.0350)
    (traj : Int → Point3 K) :
    ∃ r, simulate_trajectory m 1.75 0 24 1.0 0.0 3 0 traj MAX_STEPS = some r ∧
      r.out_cleared_net = 0 := by
  obtain ⟨r, hr, -, -, -, -, -, hcl⟩ := drive_scenario m hcos0 hsin0 hc1 hc2 hs1 hs2 traj
  exact ⟨r, hr, hcl⟩

theorem drive_scenario_net_not_cleared_witness :
    (libm_drive.cos 0 = 1 ∧ libm_drive.sin 0 = 0 ∧
      0.999 ≤ libm_drive.cos (2.0 * M_PI ℚ / 180.0) ∧
      libm_drive.cos (2.0 * M_PI ℚ / 180.0) ≤ 1 ∧
      0.0348 ≤ libm_drive.sin (2.0 * M_PI ℚ / 180.0) ∧
      libm_drive.sin (2.0 * M_PI ℚ / 180.0) ≤ 0.0350) ∧
    ∃ r, simulate_trajectory libm_drive 1.75 0 24 1.0 0.0 3 0 (zero_buf ℚ) MAX_STEPS = some r ∧
      r.out_cleared_net = 0 :=
  ⟨by decide!, drive_scenario_net_not_cleared libm_drive (by decide!) (by decide!)
    (by decide!) (by decide!) (by decide!) (by decide!) (zero_buf ℚ)⟩

/-- C9: in the end-to-end scenario (player height 1.75, standing, swing speed 24,
tension 1.0, offset 0.0, drive, yaw 0, `max_points = MAX_STEPS`) the run of
`simulate_trajectory` ends by the ground-landing `return` with landing `z = 0` and
landing `y` between 15 and 20, beyond the 13.40 m baseline: for every math library that is exact at `0` and
accurate to the third decimal at the launch angle, and in particular in real arithmetic
with the real cosine and sine. -/
theorem drive_scenario_lands_long :
    (∀ (K : Type) [LinearOrderedField K] (m : Libm K), m.cos 0 = 1 → m.sin 0 = 0 →
      0.999 ≤ m.cos (2.0 * M_PI K / 180.0) → m.cos (2.0 * M_PI K / 180.0) ≤ 1 →
      0.0348 ≤ m.sin (2.0 * M_PI K / 180.0) → m.sin (2.0 * M_PI K / 180.0) ≤ 0.0350 →
      ∀ traj : Int → Point3 K,
      ∃ r, simulate_trajectory m 1.75 0 24 1.0 0.0 3 0 traj MAX_STEPS = some r ∧
        r.exit = Exit.landed ∧ r.out_landing_z = 0 ∧
        15 ≤ r.out_landing_y ∧ r.out_landing_y ≤ 20 ∧ COURT_LENGTH K < r.out_landing_y) ∧
    (∃ r, simulate_trajectory (⟨Real.cos, Real.sin⟩ : Libm ℝ) 1.75 0 24 1.0 0.0 3 0
        (zero_buf ℝ) MAX_STEPS = some r ∧
      r.exit = Exit.landed ∧ r.out_landing_z = 0 ∧
      15 ≤ r.out_landing_y ∧ r.out_landing_y ≤ 20 ∧ COURT_LENGTH ℝ < r.out_landing_y) := by
  constructor
  · intro K _ m hcos0 hsin0 hc1 hc2 hs1 hs2 traj
    obtain ⟨r, hr, he, -, hz, hy1, hy2, -⟩ :=
      drive_scenario m hcos0 hsin0 hc1 hc2 hs1 hs2 traj
    refine ⟨r, hr, he, hz, hy1, hy2, lt_of_lt_of_le ?_ hy1⟩
    norm_num [COURT_LENGTH]
  · obtain ⟨r, hr, he, -, hz, hy1, hy2, -⟩ := drive_scenario_real
    refine ⟨r, hr, he, hz, hy1, hy2, lt_of_lt_of_le ?_ hy1⟩
    norm_num [COURT_LENGTH]

theorem drive_scenario_lands_long_witness :
    (libm_drive.cos 0 = 1 ∧ libm_drive.sin 0 = 0 ∧
      0.999 ≤ libm_drive.cos (2.0 * M_PI ℚ / 180.0) ∧
      libm_drive.cos (2.0 * M_PI ℚ / 180.0) ≤ 1 ∧
      0.0348 ≤ libm_drive.sin (2.0 * M_PI ℚ / 180.0) ∧
      libm_drive.sin (2.0 * M_PI ℚ / 180.0) ≤ 0.0350) ∧
    ∃ r, simulate_trajectory libm_drive 1.75 0 24 1.0 0.0 3 0 (zero_buf ℚ) MAX_STEPS = some r ∧
      r.exit = Exit.landed ∧ r.out_landing_z = 0 ∧
      15 ≤ r.out_landing_y ∧ r.out_landing_y ≤ 20 ∧ COURT_LENGTH ℚ < r.out_landing_y :=
  ⟨by decide!, drive_scenario_lands_long.1 ℚ libm_drive (by decide!) (by decide!)
    (by decide!) (by decide!) (by decide!) (by decide!) (zero_buf ℚ)⟩

/-! ## Loops and buffers -/

section Loops
variable {σ : Type}

theorem for_loop_nat (lo : Int) (body : Int → σ → σ) (s : σ) (P : Int → σ → Prop)
    (h0 : P lo s) :
    ∀ n : Nat,
      (∀ (k : Nat) (t : σ), k < n → P (lo + k) t → P (lo + k + 1) (body (lo + k) t)) →
      P (lo + n)
        ((List.range n).foldl (fun (acc : σ) (k : Nat) => body (lo + (k : Int)) acc) s) := by
  intro n
  induction n with
  | zero =>
    intro _
    simpa using h0
  | succ n ih =>
    intro hstep
    rw [List.range_succ, List.foldl_append]
    simp only [List.foldl_cons, List.foldl_nil]
    have hprev := ih (fun k t hk => hstep k t (by omega))
    have := hstep n _ (by omega) hprev
    push_cast
    rw [← add_assoc]
    exact this

/-- Invariant rule for a counted loop. -/
theorem for_loop_rule (lo hi : Int) (hle : lo ≤ hi) (body : Int → σ → σ) (s : σ)
    (P : Int → σ → Prop) (h0 : P lo s)
    (hstep : ∀ (i : Int) (t : σ), lo ≤ i → i < hi → P i t → P (i + 1) (body i t)) :
    P hi (for_loop lo hi body s) := by
  have hn : lo + ((hi - lo).toNat : Int) = hi := by
    rw [Int.toNat_of_nonneg (by omega)]
    omega
  have key := for_loop_nat lo body s P h0 (hi - lo).toNat ?_
  · rw [hn] at key
    exact key
  · intro k t hk hP
    have hk' : (k : Int) < hi - lo := by
      have := Int.toNat_of_nonneg (show 0 ≤ hi - lo by omega)
      omega
    exact hstep _ t (by omega) (by omega) hP

end Loops

section Panels

theorem set_cell_is_panel (buf : Buf) (r c : Int) (ch : Char) (h : is_panel buf) :
    is_panel (set_cell buf r c ch) := by
  unfold set_cell
  split_ifs with hrc
  · obtain ⟨hlen, hrows⟩ := h
    refine ⟨by rw [List.length_set]; exact hlen, ?_⟩
    intro row hrow
    by_cases hr : r.toNat < buf.length
    · rcases List.mem_or_eq_of_mem_set hrow with hmem | heq
      · exact hrows row hmem
      · rw [heq, List.length_set, List.getD_eq_getElem _ _ hr]
        exact hrows _ (List.getElem_mem hr)
    · rw [List.set_eq_of_length_le (by omega)] at hrow
      exact hrows row hrow
  · exact h

theorem getD_set_eq {α : Type} (l : List α) (j j' : Nat) (a d : α) :
    (l.set j a).getD j' d = if j' = j ∧ j < l.length then a else l.getD j' d := by
  simp only [List.getD_eq_getElem?_getD, List.getElem?_set]
  by_cases hj : j = j'
  · subst hj
    by_cases hl : j < l.length
    · simp [hl]
    · rw [List.getElem?_eq_none (by omega)]
      simp [hl]
  · have hj' : ¬ j' = j := fun h => hj h.symm
    simp [hj, hj']

theorem nested_get_set (b : List (List Char)) (i j i' j' : Nat) (ch : Char) :
    ((b.set i ((b.getD i []).set j ch)).getD i' []).getD j' ' ' =
      if i' = i ∧ j' = j ∧ i < b.length ∧ j < (b.getD i []).length then ch
      else (b.getD i' []).getD j' ' ' := by
  rw [getD_set_eq]
  by_cases hi : i' = i ∧ i < b.length
  · rw [if_pos hi, getD_set_eq]
    obtain ⟨hi1, hi2⟩ := hi
    subst hi1
    by_cases hj : j' = j ∧ j < (b.getD i' []).length
    · rw [if_pos hj, if_pos ⟨rfl, hj.1, hi2, hj.2⟩]
    · rw [if_neg hj, if_neg (fun h => hj ⟨h.2.1, h.2.2.2⟩)]
  · rw [if_neg hi, if_neg (fun h => hi ⟨h.1, h.2.2.1⟩)]

theorem get_cell_set_cell (buf : Buf) (r c : Int) (ch : Char) (h : is_panel buf)
    (r' c' : Int) :
    get_cell (set_cell buf r c ch) r' c' =
      if r' = r ∧ c' = c ∧ 0 ≤ r ∧ r < PANEL_H ∧ 0 ≤ c ∧ c < PANEL_W then ch
      else get_cell buf r' c' := by
  obtain ⟨hlen, hrows⟩ := h
  have hH : PANEL_H.toNat = 25 := rfl
  have hW : PANEL_W.toNat = 74 := rfl
  have hH' : PANEL_H = 25 := rfl
  have hW' : PANEL_W = 74 := rfl
  rw [hH] at hlen
  unfold set_cell
  by_cases hrc : 0 ≤ r ∧ 0 ≤ c
  · rw [if_pos hrc]
    unfold get_cell
    by_cases hrc' : 0 ≤ r' ∧ 0 ≤ c'
    · rw [if_pos hrc', if_pos hrc', nested_get_set]
      apply if_congr _ rfl rfl
      constructor
      · rintro ⟨h1, h2, h3, h4⟩
        have hrow : (buf.getD r.toNat []).length = 74 := by
          rw [List.getD_eq_getElem _ _ h3, ← hW]
          exact hrows _ (List.getElem_mem h3)
        rw [hrow] at h4
        refine ⟨by omega, by omega, hrc.1, by omega, hrc.2, by omega⟩
      · rintro ⟨h1, h2, h3, h4, h5, h6⟩
        have h3' : r.toNat < buf.length := by omega
        have hrow : (buf.getD r.toNat []).length = 74 := by
          rw [List.getD_eq_getElem _ _ h3', ← hW]
          exact hrows _ (List.getElem_mem h3')
        rw [hrow]
        refine ⟨by omega, by omega, h3', by omega⟩
    · have hne : ¬ (r' = r ∧ c' = c ∧ 0 ≤ r ∧ r < PANEL_H ∧ 0 ≤ c ∧ c < PANEL_W) := by
        rintro ⟨h1, h2, h3, -, h5, -⟩
        exact hrc' ⟨by omega, by omega⟩
      rw [if_neg hrc', if_neg hrc', if_neg hne]
  · have hne : ¬ (r' = r ∧ c' = c ∧ 0 ≤ r ∧ r < PANEL_H ∧ 0 ≤ c ∧ c < PANEL_W) := by
      rintro ⟨-, -, h3, -, h5, -⟩
      exact hrc ⟨h3, h5⟩
    rw [if_neg hrc, if_neg hne]

/-- Two panels with the same cells are the same buffer. -/
theorem panel_ext (b1 b2 : Buf) (h1 : is_panel b1) (h2 : is_panel b2)
    (hcells : ∀ r c : Int, 0 ≤ r → r < PANEL_H → 0 ≤ c → c < PANEL_W →
      get_cell b1 r c = get_cell b2 r c) : b1 = b2 := by
  obtain ⟨hl1, hr1⟩ := h1
  obtain ⟨hl2, hr2⟩ := h2
  have hH : PANEL_H.toNat = 25 := rfl
  have hW : PANEL_W.toNat = 74 := rfl
  have hH' : PANEL_H = 25 := rfl
  have hW' : PANEL_W = 74 := rfl
  apply List.ext_getElem (by rw [hl1, hl2])
  intro i hi1 hi2
  have hrow1 := hr1 _ (List.getElem_mem hi1)
  have hrow2 := hr2 _ (List.getElem_mem hi2)
  apply List.ext_getElem (by rw [hrow1, hrow2])
  intro j hj1 hj2
  have := hcells i j (by omega) (by omega) (by omega) (by omega)
  unfold get_cell at this
  rw [if_pos ⟨by omega, by omega⟩, if_pos ⟨by omega, by omega⟩] at this
  simp only [Int.toNat_ofNat] at this
  rw [List.getD_eq_getElem _ _ hi1, List.getD_eq_getElem _ _ hi2,
    List.getD_eq_getElem _ _ hj1, List.getD_eq_getElem _ _ hj2] at this
  exact this

theorem const_panel_is_panel (ch : Char) : is_panel (const_panel ch) := by
  refine ⟨List.length_replicate _ _, ?_⟩
  intro row hrow
  rw [List.eq_of_mem_replicate hrow]
  exact List.length_replicate _ _

theorem get_cell_const_panel (ch : Char) (r c : Int)
    (hr0 : 0 ≤ r) (hr : r < PANEL_H) (hc0 : 0 ≤ c) (hc : c < PANEL_W) :
    get_cell (const_panel ch) r c = ch := by
  have hH' : PANEL_H = 25 := rfl
  have hW' : PANEL_W = 74 := rfl
  have hH : PANEL_H.toNat = 25 := rfl
  have hW : PANEL_W.toNat = 74 := rfl
  unfold get_cell const_panel
  rw [if_pos ⟨hr0, hc0⟩, hH, hW]
  have hrow : (List.replicate 25 (List.replicate 74 ch)).getD r.toNat [] =
      List.replicate 74 ch := by
    rw [List.getD_eq_getElem _ _ (by rw [List.length_replicate]; omega),
      List.getElem_replicate]
  rw [hrow, List.getD_eq_getElem _ _ (by rw [List.length_replicate]; omega),
    List.getElem_replicate]

/-- The fill loop of line 96 turns any panel into the blank panel. -/
theorem fill_blank (buf : Buf) (h : is_panel buf) :
    for_loop 0 PANEL_H (fun r b => for_loop 0 PANEL_W (fun c b => set_cell b r c ' ') b) buf =
      const_panel ' ' := by
  have hH' : PANEL_H = 25 := rfl
  have hW' : PANEL_W = 74 := rfl
  have hrow : ∀ (r : Int) (b : Buf), is_panel b → 0 ≤ r → r < PANEL_H →
      (is_panel (for_loop 0 PANEL_W (fun c b => set_cell b r c ' ') b) ∧
        ∀ r' c' : Int,
          get_cell (for_loop 0 PANEL_W (fun c b => set_cell b r c ' ') b) r' c' =
            if r' = r ∧ 0 ≤ c' ∧ c' < PANEL_W then ' ' else get_cell b r' c') := by
    intro r b hb hr0 hr
    have key := for_loop_rule 0 PANEL_W (by decide) (fun c b => set_cell b r c ' ') b
      (fun c t => is_panel t ∧ ∀ r' c' : Int,
        get_cell t r' c' = if r' = r ∧ 0 ≤ c' ∧ c' < c then ' ' else get_cell b r' c')
      ⟨hb, fun r' c' => by rw [if_neg (by omega)]⟩ ?_
    · exact key
    · rintro c t hc0 hc ⟨ht, hcells⟩
      refine ⟨set_cell_is_panel _ _ _ _ ht, ?_⟩
      intro r' c'
      rw [get_cell_set_cell _ _ _ _ ht, hcells]
      by_cases h1 : r' = r ∧ c' = c ∧ 0 ≤ r ∧ r < PANEL_H ∧ 0 ≤ c ∧ c < PANEL_W
      · rw [if_pos h1, if_pos ⟨h1.1, by omega, by omega⟩]
      · rw [if_neg h1]
        by_cases h2 : r' = r ∧ 0 ≤ c' ∧ c' < c
        · rw [if_pos h2, if_pos ⟨h2.1, h2.2.1, by omega⟩]
        · rw [if_neg h2, if_neg]
          rintro ⟨h3, h4, h5⟩
          by_cases h6 : c' = c
          · exact h1 ⟨h3, h6, hr0, hr, hc0, hc⟩
          · exact h2 ⟨h3, h4, by omega⟩
  have key := for_loop_rule 0 PANEL_H (by decide)
    (fun r b => for_loop 0 PANEL_W (fun c b => set_cell b r c ' ') b) buf
    (fun r t => is_panel t ∧ ∀ r' c' : Int, 0 ≤ r' → r' < r → 0 ≤ c' → c' < PANEL_W →
      get_cell t r' c' = ' ')
    ⟨h, fun r' c' h0 h1 => by omega⟩ ?_
  · apply panel_ext _ _ key.1 (const_panel_is_panel _)
    intro r c hr0 hr hc0 hc
    rw [key.2 r c hr0 hr hc0 hc, get_cell_const_panel _ _ _ hr0 hr hc0 hc]
  · rintro r t hr0 hr ⟨ht, hcells⟩
    obtain ⟨hp, hg⟩ := hrow r t ht hr0 hr
    refine ⟨hp, ?_⟩
    intro r' c' hr0' hr' hc0' hc'
    rw [hg]
    by_cases h1 : r' = r ∧ 0 ≤ c' ∧ c' < PANEL_W
    · rw [if_pos h1]
    · rw [if_neg h1]
      apply hcells r' c' hr0' _ hc0' hc'
      by_contra hge
      exact h1 ⟨by omega, hc0', hc'⟩

theorem for_loop_is_panel (lo hi : Int) (body : Int → Buf → Buf) (buf : Buf)
    (hbody : ∀ (i : Int) (t : Buf), is_panel t → is_panel (body i t)) (h : is_panel buf) :
    is_panel (for_loop lo hi body buf) :=
  for_loop_nat lo body buf (fun _ t => is_panel t) h (hi - lo).toNat
    (fun _ t _ ht => hbody _ t ht)

theorem put_label_is_panel (buf : Buf) (lbl : List Char) (c0 : Int) (h : is_panel buf) :
    is_panel (put_label buf lbl c0) := by
  unfold put_label
  apply for_loop_is_panel _ _ _ _ _ h
  intro i t ht
  split_ifs
  · exact set_cell_is_panel _ _ _ _ ht
  · exact ht

theorem draw_court_is_panel (K : Type) [LinearOrderedField K] [FloorRing K]
    (buf : Buf) (h : is_panel buf) : is_panel (draw_court K buf) := by
  simp only [draw_court, fill_blank buf h]
  refine put_label_is_panel _ _ _ (put_label_is_panel _ _ _ (put_label_is_panel _ _ _ ?_))
  refine for_loop_is_panel _ _ _ _ ?_ ?_
  · intro i t ht
    split_ifs
    · exact set_cell_is_panel _ _ _ _ ht
    · exact ht
  refine for_loop_is_panel _ _ _ _
    (fun i t ht => set_cell_is_panel _ _ _ _ (set_cell_is_panel _ _ _ _ ht)) ?_
  refine for_loop_is_panel _ _ _ _ (fun i t ht => set_cell_is_panel _ _ _ _ ht) ?_
  refine for_loop_is_panel _ _ _ _
    (fun i t ht => set_cell_is_panel _ _ _ _ (set_cell_is_panel _ _ _ _ ht)) ?_
  refine set_cell_is_panel _ _ _ _ (set_cell_is_panel _ _ _ _ ?_)
  refine set_cell_is_panel _ _ _ _ (set_cell_is_panel _ _ _ _ ?_)
  refine for_loop_is_panel _ _ _ _
    (fun i t ht => set_cell_is_panel _ _ _ _ (set_cell_is_panel _ _ _ _ ht)) ?_
  refine for_loop_is_panel _ _ _ _
    (fun i t ht => set_cell_is_panel _ _ _ _ (set_cell_is_panel _ _ _ _ ht)) ?_
  exact const_panel_is_panel ' '

end Panels

/-- C10: the output of `draw_court` does not depend on the previous contents of the
buffer: for any two `PANEL_H x PANEL_W` buffers the grids after `draw_court` are
identical cell for cell; in particular drawing into an already drawn buffer gives the
same grid again. -/
theorem draw_court_deterministic (K : Type) [LinearOrderedField K] [FloorRing K]
    (b1 b2 : Buf) (h1 : is_panel b1) (h2 : is_panel b2) :
    draw_court K b1 = draw_court K b2 ∧
      draw_court K (draw_court K b1) = draw_court K b1 := by
  have hsame : ∀ b : Buf, is_panel b → draw_court K b = draw_court K (const_panel ' ') := by
    intro b hb
    simp only [draw_court, fill_blank b hb, fill_blank _ (const_panel_is_panel ' ')]
  refine ⟨(hsame b1 h1).trans (hsame b2 h2).symm, ?_⟩
  exact (hsame _ (draw_court_is_panel K b1 h1)).trans (hsame b1 h1).symm

theorem draw_court_deterministic_witness :
    (is_panel (const_panel 'a') ∧ is_panel (const_panel 'b')) ∧
    draw_court ℚ (const_panel 'a') = draw_court ℚ (const_panel 'b') ∧
      draw_court ℚ (draw_court ℚ (const_panel 'a')) = draw_court ℚ (const_panel 'a') :=
  ⟨⟨const_panel_is_panel 'a', const_panel_is_panel 'b'⟩,
    draw_court_deterministic ℚ (const_panel 'a') (const_panel 'b')
      (const_panel_is_panel 'a') (const_panel_is_panel 'b')⟩


/-! ## Shot table and default case -/

section ShotTable
variable {K : Type} [LinearOrderedField K]

theorem shot_params_default (shotType : Int) (h : shotType < 0 ∨ 3 < shotType) :
    (shot_params shotType : K × K × K) = shot_params 3 := by
  unfold shot_params
  rw [if_neg (by omega), if_neg (by omega), if_neg (by omega),
    if_neg (by decide), if_neg (by decide), if_neg (by decide)]

end ShotTable

/-- C11: `shot_params` gives (angle, speed multiplier) `(-10, 1.5)` for shot type 0,
`(40, 0.95)` for 1, `(12, 0.7)` for 2, and `(2, 1.2)` for 3 and for every other integer;
hence for every `shotType` outside `0..3`, `simulate_trajectory` returns exactly what it
returns with `shotType = 3`, all other arguments equal. -/
theorem shot_type_default_is_drive {K : Type} [LinearOrderedField K] :
    ((shot_params 0 : K × K × K).1 = -10 ∧ (shot_params 0 : K × K × K).2.1 = 1.5) ∧
    ((shot_params 1 : K × K × K).1 = 40 ∧ (shot_params 1 : K × K × K).2.1 = 0.95) ∧
    ((shot_params 2 : K × K × K).1 = 12 ∧ (shot_params 2 : K × K × K).2.1 = 0.7) ∧
    ((shot_params 3 : K × K × K).1 = 2 ∧ (shot_params 3 : K × K × K).2.1 = 1.2) ∧
    (∀ shotType : Int, shotType < 0 ∨ 3 < shotType →
      ((shot_params shotType : K × K × K).1 = 2 ∧
        (shot_params shotType : K × K × K).2.1 = 1.2) ∧
      ∀ (m : Libm K) (player_height : K) (posture : Int)
        (swing_speed tension_mult contact_offset yaw_deg : K)
        (traj : Int → Point3 K) (max_points : Int),
        simulate_trajectory m player_height posture swing_speed tension_mult
            contact_offset shotType yaw_deg traj max_points =
          simulate_trajectory m player_height posture swing_speed tension_mult
            contact_offset 3 yaw_deg traj max_points) := by
  have h3 : (shot_params 3 : K × K × K).1 = 2 ∧ (shot_params 3 : K × K × K).2.1 = 1.2 := by
    constructor <;> norm_num [shot_params]
  refine ⟨?_, ?_, ?_, h3, ?_⟩
  · constructor <;> norm_num [shot_params]
  · constructor <;> norm_num [shot_params]
  · constructor <;> norm_num [shot_params]
  · intro shotType hst
    have hd : (shot_params shotType : K × K × K) = shot_params 3 :=
      shot_params_default shotType hst
    refine ⟨by rw [hd]; exact h3, ?_⟩
    intro m player_height posture swing_speed tension_mult contact_offset yaw_deg traj
      max_points
    unfold simulate_trajectory init_state
    rw [hd]

theorem shot_type_default_is_drive_witness :
    ((7 : Int) < 0 ∨ (3 : Int) < 7) ∧
    simulate_trajectory libmQ 1.75 0 24 1 0 7 0 (zero_buf ℚ) 20000 =
      simulate_trajectory libmQ 1.75 0 24 1 0 3 0 (zero_buf ℚ) 20000 :=
  ⟨by decide, (shot_type_default_is_drive.2.2.2.2 7 (by decide)).2 libmQ 1.75 0 24 1 0 0
    (zero_buf ℚ) 20000⟩

/-! ## The first recorded point -/

section FirstPoint
variable {K : Type} [LinearOrderedField K]

theorem sim_loop_first_point (mp : Int) (hmp : 1 ≤ mp) (fuel : Nat)
    (s : SimState K) (r : SimResult K) (p : Point3 K)
    (h0 : s.idx = 0) (ht : s.t < fl64 (TIMEOUT ℚ))
    (hp : (⟨s.y, s.xlat, s.z⟩ : Point3 K) = p)
    (h : sim_loop mp fuel s = some r) :
    r.traj 0 = p := by
  refine sim_loop_rule mp
    (fun s => (s.idx = 0 ∧ s.t < fl64 (TIMEOUT ℚ) ∧ (⟨s.y, s.xlat, s.z⟩ : Point3 K) = p) ∨
      (1 ≤ s.idx ∧ s.traj 0 = p))
    (fun r => r.traj 0 = p)
    ?_ ?_ ?_ ?_ fuel s r (Or.inl ⟨h0, ht, hp⟩) h
  all_goals
    have hstep : ∀ s : SimState K,
        ((s.idx = 0 ∧ s.t < fl64 (TIMEOUT ℚ) ∧ (⟨s.y, s.xlat, s.z⟩ : Point3 K) = p) ∨
          (1 ≤ s.idx ∧ s.traj 0 = p)) → (step s).traj 0 = p := by
      intro s hP
      rw [step_traj]
      rcases hP with ⟨hi, -, hpt⟩ | ⟨hi, htr⟩
      · rw [if_pos hi.symm]
        exact hpt
      · rw [if_neg (by omega)]
        exact htr
  · intro s hP _ _
    exact hstep s hP
  · intro s hP _ _ _
    exact hstep s hP
  · intro s hP _ _ _
    refine Or.inr ⟨?_, hstep s hP⟩
    rw [step_idx]
    rcases hP with ⟨hi, -, -⟩ | ⟨hi, -⟩ <;> omega
  · intro s hP hc
    rcases hP with ⟨hi, hti, -⟩ | ⟨-, htr⟩
    · exfalso
      exact hc ⟨hti, by omega⟩
    · exact htr

end FirstPoint

/-- C12: for every input with `max_points ≥ 1`, the first recorded trajectory point of
`simulate_trajectory` is `(y = 0, xlat = 0, z = contact height)`, where the contact
height is `0.85 * player_height - 0.30` for posture 1, `0.85 * player_height + 0.42`
for posture 2, and `0.85 * player_height` for posture 0 and every other posture. -/
theorem first_point_is_contact {K : Type} [LinearOrderedField K]
    (m : Libm K) (player_height : K) (posture : Int)
    (swing_speed tension_mult contact_offset : K) (shotType : Int) (yaw_deg : K)
    (traj : Int → Point3 K) (max_points : Int) (hmp : 1 ≤ max_points) :
    (∃ r, simulate_trajectory m player_height posture swing_speed tension_mult
        contact_offset shotType yaw_deg traj max_points = some r ∧
      r.traj 0 = ⟨0, 0, contact_height player_height posture⟩) ∧
    contact_height player_height 1 = 0.85 * player_height - 0.30 ∧
    contact_height player_height 2 = 0.85 * player_height + 0.42 ∧
    (posture ≠ 1 → posture ≠ 2 → contact_height player_height posture = 0.85 * player_height) := by
  refine ⟨?_, ?_, ?_, ?_⟩
  · obtain ⟨r, hr⟩ := simulate_trajectory_returns m player_height posture swing_speed
      tension_mult contact_offset shotType yaw_deg traj max_points
    refine ⟨r, hr, ?_⟩
    unfold simulate_trajectory at hr
    refine sim_loop_first_point max_points hmp _ _ r _ (init_state_idx ..)
      (by rw [init_state_t]; exact clock_timeout_pos) ?_ hr
    show (⟨0.0, 0.0, contact_height player_height posture⟩ : Point3 K) = _
    norm_num
  · simp [contact_height]
  · simp [contact_height]
  · intro h1 h2
    simp [contact_height, h1, h2]

theorem first_point_is_contact_witness :
    (1 : Int) ≤ 20000 ∧
    (∃ r, simulate_trajectory libmQ 1.75 1 24 1 0 3 0 (zero_buf ℚ) 20000 = some r ∧
      r.traj 0 = ⟨0, 0, contact_height 1.75 1⟩) :=
  ⟨by decide, (first_point_is_contact libmQ 1.75 1 24 1 0 3 0 (zero_buf ℚ) 20000
    (by decide)).1⟩

/-! ## Closed form of the recorded points -/

section ClosedForm
variable {K : Type} [LinearOrderedField K]

theorem drag_sum_succ (k : Nat) :
    (drag_sum (k + 1) : K) = drag_sum k + drag_factor K ^ (k + 1) := by
  unfold drag_sum
  rw [Finset.sum_Icc_succ_top (by omega)]

theorem drag_sum_zero : (drag_sum 0 : K) = 0 := by
  unfold drag_sum
  simp

theorem closed_inv_step (vy0 vx0 vz0 z0 : K) (s : SimState K)
    (h : closed_inv vy0 vx0 vz0 z0 s) : closed_inv vy0 vx0 vz0 z0 (step s) := by
  obtain ⟨k, hidx, hy, hvy, hx, hvx, hvz, htr, hz0, hzs, hfirst, hzlast⟩ := h
  have e1 : (step s).vy = s.vy + -DRAG K * s.vy * DT K := rfl
  have e2 : (step s).y = s.y + (s.vy + -DRAG K * s.vy * DT K) * DT K := rfl
  have e3 : (step s).vx = s.vx + -DRAG K * s.vx * DT K := rfl
  have e4 : (step s).xlat = s.xlat + (s.vx + -DRAG K * s.vx * DT K) * DT K := rfl
  have e5 : (step s).vz = s.vz + (-GRAVITY K - DRAG K * s.vz) * DT K := rfl
  have e6 : (step s).z = s.z + (s.vz + (-GRAVITY K - DRAG K * s.vz) * DT K) * DT K := rfl
  have hk : (step s).traj (k : Nat) = ⟨s.y, s.xlat, s.z⟩ := by
    rw [step_traj, if_pos hidx.symm]
  have hold : ∀ i : Nat, i < k → (step s).traj (i : Nat) = s.traj i := by
    intro i hi
    rw [step_traj, if_neg (by omega)]
  refine ⟨k + 1, by rw [step_idx, hidx]; push_cast; rfl, ?_, ?_, ?_, ?_, ?_, ?_, ?_, ?_, ?_, ?_⟩
  · rw [e2, hy, hvy, drag_sum_succ, pow_succ]
    unfold drag_factor
    ring
  · rw [e1, hvy, pow_succ]
    unfold drag_factor
    ring
  · rw [e4, hx, hvx, drag_sum_succ, pow_succ]
    unfold drag_factor
    ring
  · rw [e3, hvx, pow_succ]
    unfold drag_factor
    ring
  · rw [e5, hvz]
    show _ = vz_seq vz0 k * drag_factor K - GRAVITY K * DT K
    unfold drag_factor
    ring
  · intro i hi
    by_cases hik : i = k
    · subst hik
      rw [hk]
      exact ⟨hy, hx⟩
    · rw [hold i (by omega)]
      exact htr i (by omega)
  · intro h0
    omega
  · intro i hi
    by_cases hik : i + 1 = k
    · rw [← hik] at hk
      rw [hk, hold i (by omega)]
      exact hzlast i hik.symm
    · rw [hold (i + 1) (by omega), hold i (by omega)]
      exact hzs i (by omega)
  · intro _
    by_cases hk0 : k = 0
    · have := hk
      rw [hk0] at this
      rw [show ((0 : Nat) : Int) = 0 from rfl] at this
      rw [this]
      exact hz0 hk0
    · have := hold 0 (by omega)
      rw [show ((0 : Nat) : Int) = 0 from rfl] at this
      rw [this]
      exact hfirst (by omega)
  · intro j hj
    have hjk : j = k := by omega
    subst hjk
    rw [e6, hk, hvz]
    show _ = s.z + _
    unfold drag_factor
    ring

theorem sim_loop_closed_form (mp : Int) (vy0 vx0 vz0 z0 : K) (fuel : Nat)
    (s : SimState K) (r : SimResult K) (hs : closed_inv vy0 vx0 vz0 z0 s)
    (h : sim_loop mp fuel s = some r) :
    (∀ k : Nat, (k : Int) < r.n →
      (r.traj k).y = vy0 * DT K * drag_sum k ∧ (r.traj k).xlat = vx0 * DT K * drag_sum k) ∧
    (0 < r.n → (r.traj 0).z = z0) ∧
    (∀ k : Nat, ((k + 1 : Nat) : Int) < r.n → (r.traj (k + 1 : Nat)).z =
      (r.traj k).z + DT K * (vz_seq vz0 k * drag_factor K - GRAVITY K * DT K)) := by
  have hQ : ∀ (s : SimState K) (e : Exit), closed_inv vy0 vx0 vz0 z0 s →
      (∀ k : Nat, (k : Int) < s.idx →
        (s.traj k).y = vy0 * DT K * drag_sum k ∧
          (s.traj k).xlat = vx0 * DT K * drag_sum k) ∧
      (0 < s.idx → (s.traj 0).z = z0) ∧
      (∀ k : Nat, ((k + 1 : Nat) : Int) < s.idx → (s.traj (k + 1 : Nat)).z =
        (s.traj k).z + DT K * (vz_seq vz0 k * drag_factor K - GRAVITY K * DT K)) := by
    rintro s - ⟨k, hidx, -, -, -, -, -, htr, -, hzs, hfirst, -⟩
    rw [hidx]
    refine ⟨fun i hi => htr i (by omega), fun hk => hfirst (by omega),
      fun i hi => hzs i (by omega)⟩
  refine sim_loop_rule mp (closed_inv vy0 vx0 vz0 z0)
    (fun r => (∀ k : Nat, (k : Int) < r.n →
        (r.traj k).y = vy0 * DT K * drag_sum k ∧
          (r.traj k).xlat = vx0 * DT K * drag_sum k) ∧
      (0 < r.n → (r.traj 0).z = z0) ∧
      (∀ k : Nat, ((k + 1 : Nat) : Int) < r.n → (r.traj (k + 1 : Nat)).z =
        (r.traj k).z + DT K * (vz_seq vz0 k * drag_factor K - GRAVITY K * DT K)))
    ?_ ?_ ?_ ?_ fuel s r hs h
  · intro s hP _ _
    exact hQ (step s) Exit.landed (closed_inv_step _ _ _ _ s hP)
  · intro s hP _ _ _
    exact hQ (step s) Exit.bounds (closed_inv_step _ _ _ _ s hP)
  · intro s hP _ _ _
    exact closed_inv_step _ _ _ _ s hP
  · intro s hP _
    exact hQ s Exit.loopEnd hP

theorem init_closed_inv (m : Libm K) (player_height : K) (posture : Int)
    (swing_speed tension_mult contact_offset : K) (shotType : Int) (yaw_deg : K)
    (traj : Int → Point3 K) :
    closed_inv
      (launch_speed swing_speed tension_mult contact_offset
          (shot_params shotType : K × K × K).2.1 *
        m.cos ((shot_params shotType : K × K × K).1 * M_PI K / 180.0) *
        m.cos (yaw_deg * M_PI K / 180.0))
      (launch_speed swing_speed tension_mult contact_offset
          (shot_params shotType : K × K × K).2.1 *
        m.cos ((shot_params shotType : K × K × K).1 * M_PI K / 180.0) *
        m.sin (yaw_deg * M_PI K / 180.0))
      (launch_speed swing_speed tension_mult contact_offset
          (shot_params shotType : K × K × K).2.1 *
        m.sin ((shot_params shotType : K × K × K).1 * M_PI K / 180.0))
      (contact_height player_height posture)
      (init_state m player_height posture swing_speed tension_mult contact_offset
        shotType yaw_deg traj) := by
  refine ⟨0, rfl, ?_, ?_, ?_, ?_, rfl, fun i hi => absurd hi (by omega), fun _ => rfl,
    fun i hi => absurd hi (by omega), fun h => absurd h (by omega),
    fun j hj => absurd hj (by omega)⟩
  · show (0.0 : K) = _
    rw [drag_sum_zero]
    norm_num
  · rw [pow_zero, mul_one]
    rfl
  · show (0.0 : K) = _
    rw [drag_sum_zero]
    norm_num
  · rw [pow_zero, mul_one]
    rfl

end ClosedForm

section FlightBounds
variable {K : Type} [LinearOrderedField K]

end FlightBounds

section ConstCasts
variable {K : Type} [LinearOrderedField K]

theorem cast_COURT_LENGTH : ((COURT_LENGTH ℚ : ℚ) : K) = COURT_LENGTH K := by
  simp [COURT_LENGTH]

end ConstCasts

section MapRange
variable {K : Type} [LinearOrderedField K] [FloorRing K]

theorem c_round_int (n : Int) (h : 0 ≤ n) : c_round ((n : K)) = n := by
  unfold c_round
  rw [if_pos (by exact_mod_cast h)]
  have h5 : (0.5 : K) = 1 / 2 := by norm_num
  rw [h5, Int.floor_eq_iff]
  constructor
  · linarith
  · linarith

theorem c_round_cast (x : ℚ) : c_round ((x : ℚ) : K) = c_round x := by
  unfold c_round
  have h5K : (0.5 : K) = ((0.5 : ℚ) : K) := by norm_num
  by_cases h : 0 ≤ x
  · rw [if_pos h, if_pos (by exact_mod_cast h), h5K, ← Rat.cast_add, Rat.floor_cast]
  · rw [if_neg h, if_neg (by exact_mod_cast h), h5K, ← Rat.cast_neg, ← Rat.cast_add,
      Rat.floor_cast]

/-- The column of a rational forward distance does not depend on the field it is
computed in. -/
theorem mapYtoCol_cast (y : ℚ) : mapYtoCol ((y : ℚ) : K) = mapYtoCol y := by
  rw [mapYtoCol_eq, mapYtoCol_eq, ← c_round_cast (K := K)]
  congr 1
  push_cast
  rw [cast_COURT_LENGTH]

theorem mapYtoCol_zero : mapYtoCol (0 : K) = 0 := by
  have h := mapYtoCol_cast (K := K) 0
  rw [Rat.cast_zero] at h
  rw [h]
  decide!

theorem mapYtoCol_court_length : mapYtoCol (COURT_LENGTH K) = 71 := by
  rw [← cast_COURT_LENGTH, mapYtoCol_cast]
  decide!

theorem mapYtoCol_net : mapYtoCol (NET_POS K) = 36 := by
  have h : NET_POS K = ((NET_POS ℚ : ℚ) : K) := by
    unfold NET_POS
    push_cast
    rw [cast_COURT_LENGTH]
  rw [h, mapYtoCol_cast]
  decide!

theorem mapYtoCol_svc_left : mapYtoCol (NET_POS K - 1.98) = 25 := by
  have h : NET_POS K - 1.98 = ((NET_POS ℚ - 1.98 : ℚ) : K) := by
    unfold NET_POS
    push_cast
    rw [cast_COURT_LENGTH]
  rw [h, mapYtoCol_cast]
  decide!

theorem mapYtoCol_svc_right : mapYtoCol (NET_POS K + 1.98) = 46 := by
  have h : NET_POS K + 1.98 = ((NET_POS ℚ + 1.98 : ℚ) : K) := by
    unfold NET_POS
    push_cast
    rw [cast_COURT_LENGTH]
  rw [h, mapYtoCol_cast]
  decide!

end MapRange

/-! ## Frames of the animation -/

section Frames
variable {K : Type} [LinearOrderedField K] [FloorRing K]

end Frames

/-- C14: the closing classification shown by `animate_topview` is a function of the
landing `y` alone: it is `fell_short` iff `land_y < NET_POS = 6.70`, `long` iff
`land_y > COURT_LENGTH = 13.40`, `inside` otherwise; any two calls with the same landing
`y` (whatever the landing `x` and everything else) give the same classification. -/
theorem landing_verdict_depends_on_y_only (K : Type) [LinearOrderedField K] [FloorRing K]
    (traj : Int → Point3 K) (npoints : Int) (land_y land_x : K) (cleared_net : Int)
    (buf0 trail0 : Buf) :
    (NET_POS K = 6.70 ∧ COURT_LENGTH K = 13.40) ∧
    ((animate_topview K traj npoints land_y land_x cleared_net buf0 trail0).verdict =
        Verdict.fell_short ↔ land_y < NET_POS K) ∧
    ((animate_topview K traj npoints land_y land_x cleared_net buf0 trail0).verdict =
        Verdict.long ↔ land_y > COURT_LENGTH K) ∧
    ((animate_topview K traj npoints land_y land_x cleared_net buf0 trail0).verdict =
        Verdict.inside ↔ ¬ land_y < NET_POS K ∧ ¬ land_y > COURT_LENGTH K) ∧
    (∀ (traj' : Int → Point3 K) (npoints' : Int) (land_x' : K) (cleared_net' : Int)
      (buf0' trail0' : Buf),
      (animate_topview K traj' npoints' land_y land_x' cleared_net' buf0' trail0').verdict =
        (animate_topview K traj npoints land_y land_x cleared_net buf0 trail0).verdict) := by
  have hv : (animate_topview K traj npoints land_y land_x cleared_net buf0 trail0).verdict =
      landing_verdict K land_y := rfl
  have hnet : NET_POS K < COURT_LENGTH K := by
    have := @COURT_LENGTH_pos K _
    unfold NET_POS
    norm_num
    linarith
  refine ⟨⟨by norm_num [NET_POS, COURT_LENGTH], by norm_num [COURT_LENGTH]⟩, ?_, ?_, ?_,
    fun _ _ _ _ _ _ => rfl⟩
  · rw [hv]
    unfold landing_verdict
    by_cases h1 : land_y < NET_POS K
    · simp [h1]
    · by_cases h2 : land_y > COURT_LENGTH K
      · simp [h1, h2]
      · simp [h1, h2]
  · rw [hv]
    unfold landing_verdict
    by_cases h1 : land_y < NET_POS K
    · have : ¬ land_y > COURT_LENGTH K := by
        intro h2
        exact absurd (lt_trans h2 h1) (not_lt.mpr (le_of_lt hnet))
      simp [h1, this]
    · by_cases h2 : land_y > COURT_LENGTH K
      · simp [h1, h2]
      · simp [h1, h2]
  · rw [hv]
    unfold landing_verdict
    by_cases h1 : land_y < NET_POS K
    · simp [h1]
    · by_cases h2 : land_y > COURT_LENGTH K
      · simp [h1, h2]
      · simp [h1, h2]

section MidRow
variable {K : Type} [LinearOrderedField K] [FloorRing K]

/-- The court drawn into any panel is the court drawn into the blank panel. -/
theorem draw_court_blank (buf : Buf) (h : is_panel buf) :
    draw_court K buf = draw_court K (const_panel ' ') := by
  simp only [draw_court, fill_blank buf h, fill_blank _ (const_panel_is_panel ' ')]

/-- The court does not depend on the field the columns are computed in. -/
theorem draw_court_field_indep (buf : Buf) : draw_court K buf = draw_court ℚ buf := by
  simp only [draw_court, mapYtoCol_net, mapYtoCol_svc_left, mapYtoCol_svc_right,
    mapYtoCol_zero, mapYtoCol_court_length]

theorem draw_court_mid_row :
    (draw_court ℚ (const_panel ' ')).getD 12 [] = court_mid_row := by
  decide!

theorem court_mid_row_cells :
    court_mid_row.getD 0 ' ' = '|' ∧ court_mid_row.getD 72 ' ' = '|' ∧
    court_mid_row.getD 37 ' ' = '|' ∧ court_mid_row.getD 26 ' ' = '+' ∧
    court_mid_row.getD 47 ' ' = '+' ∧
    ∀ n : Nat, n < 72 → (1 ≤ n ∧ n ≠ 26 ∧ n ≠ 37 ∧ n ≠ 47) →
      court_mid_row.getD n ' ' = '-' := by
  refine ⟨by decide, by decide, by decide, by decide, by decide, ?_⟩
  decide

theorem get_cell_draw_court_mid (buf : Buf) (h : is_panel buf) (c : Int) (hc : 0 ≤ c) :
    get_cell (draw_court K buf) 12 c = court_mid_row.getD c.toNat ' ' := by
  rw [draw_court_blank buf h, draw_court_field_indep]
  unfold get_cell
  rw [if_pos ⟨by decide, hc⟩]
  have h12 : (12 : Int).toNat = 12 := rfl
  rw [h12, draw_court_mid_row]

end MidRow

/-- C16: after `draw_court` the horizontal centre line has overwritten no marking.  On
the middle buffer row (row `2 + GRID_ROWS / 2 = 12`) the border cells (columns `0` and
`PANEL_W - 2 = 72`) hold `|`, the net cell (column `1 + mapYtoCol NET_POS = 37`) holds
`|`, the two service-line cells (columns `1 + mapYtoCol (NET_POS - 1.98) = 26` and
`1 + mapYtoCol (NET_POS + 1.98) = 47`) hold `+`, and every other cell in columns
`1..71` of that row holds `-`. -/
theorem centre_line_keeps_markings (K : Type) [LinearOrderedField K] [FloorRing K]
    (buf : Buf) (h : is_panel buf) :
    (2 + Int.tdiv GRID_ROWS 2 = 12 ∧ PANEL_W - 2 = 72 ∧ 1 + mapYtoCol (NET_POS K) = 37 ∧
      1 + mapYtoCol (NET_POS K - 1.98) = 26 ∧ 1 + mapYtoCol (NET_POS K + 1.98) = 47) ∧
    get_cell (draw_court K buf) 12 0 = '|' ∧
    get_cell (draw_court K buf) 12 72 = '|' ∧
    get_cell (draw_court K buf) 12 37 = '|' ∧
    get_cell (draw_court K buf) 12 26 = '+' ∧
    get_cell (draw_court K buf) 12 47 = '+' ∧
    ∀ c : Int, 1 ≤ c → c ≤ 71 → c ≠ 26 → c ≠ 37 → c ≠ 47 →
      get_cell (draw_court K buf) 12 c = '-' := by
  obtain ⟨c0, c72, c37, c26, c47, crest⟩ := court_mid_row_cells
  refine ⟨⟨by decide, by decide, ?_, ?_, ?_⟩, ?_, ?_, ?_, ?_, ?_, ?_⟩
  · rw [mapYtoCol_net]; rfl
  · rw [mapYtoCol_svc_left]; rfl
  · rw [mapYtoCol_svc_right]; rfl
  · rw [get_cell_draw_court_mid buf h 0 (by decide)]; exact c0
  · rw [get_cell_draw_court_mid buf h 72 (by decide)]; exact c72
  · rw [get_cell_draw_court_mid buf h 37 (by decide)]; exact c37
  · rw [get_cell_draw_court_mid buf h 26 (by decide)]; exact c26
  · rw [get_cell_draw_court_mid buf h 47 (by decide)]; exact c47
  · intro c h1 h2 h3 h4 h5
    rw [get_cell_draw_court_mid buf h c (by omega)]
    exact crest c.toNat (by omega) ⟨by omega, by omega, by omega, by omega⟩

theorem centre_line_keeps_markings_witness :
    is_panel (const_panel 'z') ∧
    get_cell (draw_court ℚ (const_panel 'z')) 12 37 = '|' :=
  ⟨const_panel_is_panel 'z',
    (centre_line_keeps_markings ℚ (const_panel 'z') (const_panel_is_panel 'z')).2.2.2.1⟩

theorem side_facts : ∀ k : Nat, k ≤ 35 → 288 / 10 * (euler_coef k).a ≤ 1018 / 100 := by
  decide!

theorem side_facts_end (j : Nat) (hj : j = 36) :
    1018 / 100 < 288 / 10 * (999 / 1000) * (99 / 100) * (euler_coef j).a := by
  subst hj
  decide!

theorem side_facts_mid (j : Nat) (hj : j = 28) :
    759 / 100 < 288 / 10 * (999 / 1000) * (99 / 100) * (euler_coef j).a := by
  subst hj
  decide!

section Side
variable {K : Type} [LinearOrderedField K]

theorem side_facts_cast (k : Nat) (hk : k ≤ 35) :
    (288 / 10 : K) * (euler_coef k).a ≤ 1018 / 100 := by
  have := (Rat.cast_le (K := K)).mpr (side_facts k hk)
  push_cast at this
  exact this

theorem side_facts_end_cast (j : Nat) (hj : j = 36) :
    (1018 / 100 : K) < 288 / 10 * (999 / 1000) * (99 / 100) * (euler_coef j).a := by
  have := (Rat.cast_lt (K := K)).mpr (side_facts_end j hj)
  push_cast at this
  exact this

theorem side_facts_mid_cast (j : Nat) (hj : j = 28) :
    (759 / 100 : K) < 288 / 10 * (999 / 1000) * (99 / 100) * (euler_coef j).a := by
  have := (Rat.cast_lt (K := K)).mpr (side_facts_mid j hj)
  push_cast at this
  exact this

/-- The coefficients of `euler_coef` are the powers and sums of the drag factor. -/
theorem euler_coef_eq (k : Nat) :
    (((euler_coef k).p : ℚ) : K) = drag_factor K ^ k ∧
      (((euler_coef k).a : ℚ) : K) = DT K * drag_sum k := by
  induction k with
  | zero =>
    simp only [euler_coef]
    rw [drag_sum_zero]
    constructor <;> simp
  | succ k ih =>
    obtain ⟨hp, ha⟩ := ih
    simp only [euler_coef]
    push_cast
    rw [cast_DRAG, cast_DT, hp, ha, drag_sum_succ, pow_succ]
    unfold drag_factor
    constructor <;> ring

/-- One Euler update moves the lateral closed form from `k` to `k + 1`. -/
theorem step_closed_form_x (vx0 : K) (k : Nat) (s : SimState K)
    (hx : s.xlat = vx0 * (euler_coef k).a) (hvx : s.vx = vx0 * (euler_coef k).p) :
    (step s).xlat = vx0 * (euler_coef (k + 1)).a ∧
    (step s).vx = vx0 * (euler_coef (k + 1)).p := by
  have e1 : (step s).vx = s.vx + -DRAG K * s.vx * DT K := rfl
  have e2 : (step s).xlat = s.xlat + (s.vx + -DRAG K * s.vx * DT K) * DT K := rfl
  rw [e1, e2, hx, hvx]
  simp only [euler_coef]
  push_cast
  rw [cast_DRAG, cast_DT]
  refine ⟨?_, ?_⟩ <;> ring

theorem side_loop_cond (vy0 vx0 sn : K) (s : SimState K) (h : side_inv vy0 vx0 sn s) :
    loop_cond 20000 s := by
  obtain ⟨k, hk, hidx, ht, -⟩ := h
  constructor
  · rw [ht]
    exact clock_lt_timeout k (by omega)
  · rw [hidx]
    omega

set_option maxHeartbeats 1000000 in
/-- The body of the loop run from a sideways-drive state: the state after the update
is in closed form at `k + 1` and above the ground; it is inside the bounds when
`k + 1 ≤ 35` and outside them, by its lateral offset, when `k + 1 = 36`. -/
theorem side_step (vy0 vx0 sn : K)
    (hy2 : vy0 ≤ 288 / 10000)
    (hx1 : 288 / 10 * (999 / 1000) * (99 / 100) ≤ vx0) (hx2 : vx0 ≤ 288 / 10)
    (hs1 : 348 / 10000 ≤ sn)
    (s : SimState K) (k : Nat) (hk : k ≤ 35) (hidx : s.idx = k) (ht : s.t = clock k)
    (hy : s.y = vy0 * (euler_coef k).a) (hvy : s.vy = vy0 * (euler_coef k).p)
    (hx : s.xlat = vx0 * (euler_coef k).a) (hvx : s.vx = vx0 * (euler_coef k).p)
    (hz : s.z = 14875 / 10000 + 288 / 10 * sn * (euler_coef k).a - (euler_coef k).g)
    (hvz : s.vz = 288 / 10 * sn * (euler_coef k).p - (euler_coef k).h) :
    (step s).idx = (k + 1 : Nat) ∧ (step s).t = clock (k + 1) ∧
    (step s).y = vy0 * (euler_coef (k + 1)).a ∧ (step s).vy = vy0 * (euler_coef (k + 1)).p ∧
    (step s).xlat = vx0 * (euler_coef (k + 1)).a ∧
    (step s).vx = vx0 * (euler_coef (k + 1)).p ∧
    (step s).z = 14875 / 10000 + 288 / 10 * sn * (euler_coef (k + 1)).a -
      (euler_coef (k + 1)).g ∧
    (step s).vz = 288 / 10 * sn * (euler_coef (k + 1)).p - (euler_coef (k + 1)).h ∧
    0 < (step s).z ∧ (step s).y < 1 ∧
    (k + 1 ≤ 35 → ¬ out_of_bounds (step s)) ∧
    (k + 1 = 36 → out_of_bounds (step s) ∧ 1018 / 100 < (step s).xlat) := by
  obtain ⟨ha', hyup, -, hzlo⟩ := drive_facts_cast (K := K) (k + 1) (by omega)
  obtain ⟨f1, f2, f3, f4⟩ :=
    step_closed_form vy0 (288 / 10 * sn) (14875 / 10000) k s hy hvy hz hvz
  obtain ⟨g1, g2⟩ := step_closed_form_x vx0 k s hx hvx
  have hyb : vy0 * ((euler_coef (k + 1)).a : K) ≤ 288 / 10000 * (euler_coef (k + 1)).a :=
    mul_le_mul_of_nonneg_right hy2 ha'
  have hxlo : 288 / 10 * (999 / 1000) * (99 / 100) * ((euler_coef (k + 1)).a : K) ≤
      vx0 * (euler_coef (k + 1)).a := mul_le_mul_of_nonneg_right hx1 ha'
  have hxhi : vx0 * ((euler_coef (k + 1)).a : K) ≤ 288 / 10 * (euler_coef (k + 1)).a :=
    mul_le_mul_of_nonneg_right hx2 ha'
  have hx0 : (0 : K) ≤ vx0 := le_trans (by norm_num) hx1
  have hxnn : 0 ≤ vx0 * ((euler_coef (k + 1)).a : K) := mul_nonneg hx0 ha'
  have hcl8 : COURT_LENGTH K + 8.0 = 214 / 10 := by norm_num [COURT_LENGTH]
  have hcw : COURT_WIDTH K + 5.0 = 1018 / 100 := by norm_num [COURT_WIDTH]
  have hylt : (step s).y < 1 := by
    rw [f1]
    linarith
  refine ⟨?_, ?_, f1, f2, g1, g2, f3, f4, ?_, hylt, ?_, ?_⟩
  · rw [step_idx, hidx]
    push_cast
    rfl
  · show fl64 (s.t + fl64 (DT ℚ)) = _
    rw [ht, clock_succ]
  · have h0 := hzlo (by omega) (by omega)
    rw [f3]
    have := scale_le (348 / 10000) sn _ hs1 ha'
    linarith
  · intro hk1
    have hside := side_facts_cast (K := K) (k + 1) hk1
    rintro (hb | hb)
    · rw [hcl8] at hb
      linarith
    · rw [hcw, g1, abs_of_nonneg hxnn] at hb
      linarith
  · intro hk1
    have hend := side_facts_end_cast (K := K) (k + 1) hk1
    have hgt : 1018 / 100 < (step s).xlat := by
      rw [g1]
      linarith
    refine ⟨Or.inr ?_, hgt⟩
    rw [hcw]
    exact lt_of_lt_of_le hgt (le_abs_self _)

/-- The run of the loop from the first sideways-drive state: it is ended by the bounds
`break` after 36 stored points, in the air, beside the court. -/
theorem side_run (vy0 vx0 sn : K)
    (hy2 : vy0 ≤ 288 / 10000)
    (hx1 : 288 / 10 * (999 / 1000) * (99 / 100) ≤ vx0) (hx2 : vx0 ≤ 288 / 10)
    (hs1 : 348 / 10000 ≤ sn)
    (fuel : Nat) (s : SimState K) (r : SimResult K) (hs : side_inv vy0 vx0 sn s)
    (h : sim_loop 20000 fuel s = some r) :
    r.exit = Exit.bounds ∧ r.n = 36 ∧ 0 < r.out_landing_z ∧
      r.out_landing_y < 1 ∧ 1018 / 100 < r.out_landing_x := by
  refine sim_loop_rule 20000 (side_inv vy0 vx0 sn)
    (fun r => r.exit = Exit.bounds ∧ r.n = 36 ∧ 0 < r.out_landing_z ∧
      r.out_landing_y < 1 ∧ 1018 / 100 < r.out_landing_x)
    ?_ ?_ ?_ ?_ fuel s r hs h
  · rintro s ⟨k, hk, hidx, ht, hy, hvy, hx, hvx, hz, hvz⟩ _ hland
    obtain ⟨-, -, -, -, -, -, -, -, g, -⟩ :=
      side_step vy0 vx0 sn hy2 hx1 hx2 hs1 s k hk hidx ht hy hvy hx hvx hz hvz
    exact absurd hland (not_le.mpr g)
  · rintro s ⟨k, hk, hidx, ht, hy, hvy, hx, hvx, hz, hvz⟩ _ _ hb
    obtain ⟨g1, -, -, -, -, -, -, -, g2, g3, g4, g5⟩ :=
      side_step vy0 vx0 sn hy2 hx1 hx2 hs1 s k hk hidx ht hy hvy hx hvx hz hvz
    have hk36 : k + 1 = 36 := by
      by_contra hne
      exact g4 (by omega) hb
    refine ⟨rfl, ?_, g2, g3, (g5 hk36).2⟩
    show (step s).idx = 36
    rw [g1, hk36]
    rfl
  · rintro s ⟨k, hk, hidx, ht, hy, hvy, hx, hvx, hz, hvz⟩ _ _ hnb
    obtain ⟨g1, g2, g3, g4, g5, g6, g7, g8, -, -, -, g9⟩ :=
      side_step vy0 vx0 sn hy2 hx1 hx2 hs1 s k hk hidx ht hy hvy hx hvx hz hvz
    have hk1 : k + 1 ≤ 35 := by
      by_contra hne
      exact hnb (g9 (by omega)).1
    exact ⟨k + 1, hk1, g1, g2, g3, g4, g5, g6, g7, g8⟩
  · intro s hP hnc
    exact absurd (side_loop_cond vy0 vx0 sn s hP) hnc

theorem drive_launch_speed :
    launch_speed (24 : K) 1.0 0.0 (shot_params 3 : K × K × K).2.1 = 288 / 10 := by
  rw [launch_speed_eq]
  have hsp : (shot_params 3 : K × K × K).2.1 = 1.2 := by
    simp [shot_params]
  rw [hsp]
  norm_num

theorem drive_launch_angle : (shot_params 3 : K × K × K).1 = 2.0 := by
  simp [shot_params]

theorem side_init (m : Libm K) (traj : Int → Point3 K) :
    side_inv
      (288 / 10 * m.cos (2.0 * M_PI K / 180.0) * m.cos (90 * M_PI K / 180.0))
      (288 / 10 * m.cos (2.0 * M_PI K / 180.0) * m.sin (90 * M_PI K / 180.0))
      (m.sin (2.0 * M_PI K / 180.0))
      (init_state m 1.75 0 24 1.0 0.0 3 90 traj) := by
  refine ⟨0, by omega, rfl, rfl, ?_, ?_, ?_, ?_, ?_, ?_⟩
  · show (0.0 : K) = _
    simp only [euler_coef]
    norm_num
  · show launch_speed (24 : K) 1.0 0.0 (shot_params 3 : K × K × K).2.1 *
        m.cos ((shot_params 3 : K × K × K).1 * M_PI K / 180.0) *
        m.cos (90 * M_PI K / 180.0) = _
    rw [drive_launch_speed, drive_launch_angle]
    simp [euler_coef]
  · show (0.0 : K) = _
    simp only [euler_coef]
    norm_num
  · show launch_speed (24 : K) 1.0 0.0 (shot_params 3 : K × K × K).2.1 *
        m.cos ((shot_params 3 : K × K × K).1 * M_PI K / 180.0) *
        m.sin (90 * M_PI K / 180.0) = _
    rw [drive_launch_speed, drive_launch_angle]
    simp [euler_coef]
  · show contact_height (1.75 : K) 0 = _
    simp only [euler_coef, contact_height]
    norm_num
  · show launch_speed (24 : K) 1.0 0.0 (shot_params 3 : K × K × K).2.1 *
        m.sin ((shot_params 3 : K × K × K).1 * M_PI K / 180.0) = _
    rw [drive_launch_speed, drive_launch_angle]
    simp [euler_coef]

/-- The drive aimed 90 degrees to the side, in any ordered field, for any math library
accurate to two decimals at the two angles: the run is ended by the bounds `break`
after 36 stored points, mid-air, beside the court, and the stored point 28 is already
more than half the court width plus 5 m to the side. -/
theorem side_scenario (m : Libm K)
    (hc1 : 0.999 ≤ m.cos (2.0 * M_PI K / 180.0)) (hc2 : m.cos (2.0 * M_PI K / 180.0) ≤ 1)
    (hs1 : 0.0348 ≤ m.sin (2.0 * M_PI K / 180.0))
    (hcy : m.cos (90 * M_PI K / 180.0) ≤ 0.001)
    (hsy1 : 0.99 ≤ m.sin (90 * M_PI K / 180.0)) (hsy2 : m.sin (90 * M_PI K / 180.0) ≤ 1)
    (traj : Int → Point3 K) :
    ∃ r, simulate_trajectory m 1.75 0 24 1.0 0.0 3 90 traj MAX_STEPS = some r ∧
      r.exit = Exit.bounds ∧ r.n = 36 ∧ 0 < r.out_landing_z ∧
      r.out_landing_y < 1 ∧ 1018 / 100 < r.out_landing_x ∧
      759 / 100 < (r.traj 28).xlat := by
  obtain ⟨r, hr⟩ := simulate_trajectory_returns m 1.75 0 24 1.0 0.0 3 90 traj MAX_STEPS
  refine ⟨r, hr, ?_⟩
  unfold simulate_trajectory at hr
  have hM : MAX_STEPS = 20000 := rfl
  rw [hM] at hr
  have hinit := side_init m traj
  have hcf := (sim_loop_closed_form 20000 _ _ _ _ _ _ r
    (init_closed_inv m 1.75 0 24 1.0 0.0 3 90 traj) hr).1 28
  rw [drive_launch_speed, drive_launch_angle] at hcf
  generalize m.cos (2.0 * M_PI K / 180.0) = c at hc1 hc2 hinit hcf
  generalize m.sin (2.0 * M_PI K / 180.0) = sn at hs1 hinit hcf
  generalize m.cos (90 * M_PI K / 180.0) = cy at hcy hinit hcf
  generalize m.sin (90 * M_PI K / 180.0) = sy at hsy1 hsy2 hinit hcf
  have hc1' : (999 / 1000 : K) ≤ c := by
    norm_num at hc1 ⊢
    exact hc1
  have hs1' : (348 / 10000 : K) ≤ sn := by
    norm_num at hs1 ⊢
    exact hs1
  have hcy' : cy ≤ (1 / 1000 : K) := by
    norm_num at hcy ⊢
    exact hcy
  have hsy1' : (99 / 100 : K) ≤ sy := by
    norm_num at hsy1 ⊢
    exact hsy1
  clear hc1 hs1 hcy hsy1
  have hc0 : (0 : K) ≤ c := le_trans (by norm_num) hc1'
  have hsy0 : (0 : K) ≤ sy := le_trans (by norm_num) hsy1'
  have hvy : 288 / 10 * c * cy ≤ 288 / 10000 := by
    have h1 : c * cy ≤ 1 / 1000 := by
      by_cases hneg : cy ≤ 0
      · have := mul_nonpos_of_nonneg_of_nonpos hc0 hneg
        linarith
      · have hpos : 0 ≤ cy := le_of_lt (not_le.mp hneg)
        have := mul_le_mul hc2 hcy' hpos (by norm_num : (0 : K) ≤ 1)
        linarith
    linarith
  have hvx1 : 288 / 10 * (999 / 1000) * (99 / 100) ≤ 288 / 10 * c * sy := by
    have h1 : (999 / 1000 : K) * (99 / 100) ≤ c * sy :=
      mul_le_mul hc1' hsy1' (by norm_num) hc0
    linarith
  have hvx2 : 288 / 10 * c * sy ≤ 288 / 10 := by
    have h1 : c * sy ≤ 1 * 1 := mul_le_mul hc2 hsy2 hsy0 (by norm_num)
    linarith
  obtain ⟨h1, h2, h3, h4, h5⟩ :=
    side_run _ _ _ hvy hvx1 hvx2 hs1' _ _ r hinit hr
  refine ⟨h1, h2, h3, h4, h5, ?_⟩
  have h28 := (hcf (by rw [h2]; decide)).2
  rw [show ((28 : Nat) : Int) = 28 from rfl] at h28
  obtain ⟨j, hj⟩ : ∃ j : Nat, j = 28 := ⟨28, rfl⟩
  have hmid := side_facts_mid_cast (K := K) j hj
  have ha := (drive_facts_cast (K := K) j (by omega)).1
  have hsum := (euler_coef_eq (K := K) j).2
  have hd : (drag_sum j : K) = drag_sum 28 := by rw [hj]
  have hx28 : (r.traj 28).xlat = 288 / 10 * c * sy * (euler_coef j).a := by
    rw [h28, hsum, hd]
    ring
  rw [hx28]
  have := mul_le_mul_of_nonneg_right hvx1 ha
  linarith

end Side

theorem real_side_angle :
    Real.cos (90 * M_PI ℝ / 180.0) ≤ 0.001 ∧ 0.99 ≤ Real.sin (90 * M_PI ℝ / 180.0) ∧
      Real.sin (90 * M_PI ℝ / 180.0) ≤ 1 := by
  have hlo := Real.pi_gt_d20
  have hhi := Real.pi_lt_d20
  have hw : 90 * M_PI ℝ / 180.0 = Real.pi / 2 - (Real.pi - M_PI ℝ) / 2 := by
    ring
  have hM : M_PI ℝ = 3.14159265358979323846 := rfl
  have hd0 : 0 ≤ (Real.pi - M_PI ℝ) / 2 := by
    rw [hM]; linarith
  have hd1 : (Real.pi - M_PI ℝ) / 2 ≤ 1 / 1000 := by
    rw [hM]
    norm_num at hhi ⊢
    linarith
  rw [hw, Real.cos_pi_div_two_sub, Real.sin_pi_div_two_sub]
  generalize (Real.pi - M_PI ℝ) / 2 = d at hd0 hd1
  refine ⟨?_, ?_, Real.cos_le_one d⟩
  · have := Real.sin_le hd0
    norm_num
    linarith
  · have h := Real.one_sub_sq_div_two_le_cos (x := d)
    have hsq : d ^ 2 ≤ (1 / 1000) ^ 2 := pow_le_pow_left₀ hd0 hd1 2
    norm_num at hsq ⊢
    linarith

theorem side_scenario_real :
    ∃ r, simulate_trajectory (⟨Real.cos, Real.sin⟩ : Libm ℝ) 1.75 0 24 1.0 0.0 3 90
        (zero_buf ℝ) MAX_STEPS = some r ∧
      r.exit = Exit.bounds ∧ r.n = 36 ∧ 0 < r.out_landing_z ∧
      r.out_landing_y < 1 ∧ 1018 / 100 < r.out_landing_x ∧
      759 / 100 < (r.traj 28).xlat :=
  side_scenario ⟨Real.cos, Real.sin⟩ real_cos_launch.1 real_cos_launch.2 real_sin_launch.1
    real_side_angle.1 real_side_angle.2.1 real_side_angle.2.2 (zero_buf ℝ)

/-! ## The bounds test -/

section BoundsRule
variable {K : Type} [LinearOrderedField K]

theorem out_of_bounds_iff (s : SimState K) :
    out_of_bounds s ↔ (s.y > COURT_LENGTH K + 8 ∨ |s.xlat| > COURT_WIDTH K + 5) := by
  unfold out_of_bounds
  have h8 : (8.0 : K) = 8 := by norm_num
  have h5 : (5.0 : K) = 5 := by norm_num
  rw [h8, h5]

theorem landing_verdict_iff (land_y : K) :
    (landing_verdict K land_y = Verdict.fell_short ↔ land_y < NET_POS K) ∧
    (landing_verdict K land_y = Verdict.long ↔ land_y > COURT_LENGTH K) ∧
    (landing_verdict K land_y = Verdict.inside ↔
      ¬ land_y < NET_POS K ∧ ¬ land_y > COURT_LENGTH K) := by
  have hnet : NET_POS K < COURT_LENGTH K := by
    have := @COURT_LENGTH_pos K _
    unfold NET_POS
    norm_num
    linarith
  unfold landing_verdict
  by_cases h1 : land_y < NET_POS K
  · have : ¬ land_y > COURT_LENGTH K := by
      intro h2
      exact absurd (lt_trans h2 h1) (not_lt.mpr (le_of_lt hnet))
    simp [h1, this]
  · by_cases h2 : land_y > COURT_LENGTH K
    · simp [h1, h2]
    · simp [h1, h2]

end BoundsRule

/-- C13 (counterexample): the drive aimed 90 degrees to the side (player height 1.75,
standing, swing speed 24, tension 1.0, offset 0.0, shot type 3, yaw 90, real
arithmetic with the real cosine and sine).  Point 28 is recorded, so the step that
produced it neither landed nor aborted the run, yet its lateral offset exceeds half the
court width plus 5 m, which is 7.59 m. -/
theorem lateral_bound_is_not_half_width :
    COURT_WIDTH ℝ / 2 + 5 = 7.59 ∧
    ∃ r, simulate_trajectory (⟨Real.cos, Real.sin⟩ : Libm ℝ) 1.75 0 24 1.0 0.0 3 90
        (zero_buf ℝ) MAX_STEPS = some r ∧
      28 < r.n ∧ |(r.traj 28).xlat| > COURT_WIDTH ℝ / 2 + 5 := by
  have hw : COURT_WIDTH ℝ / 2 + 5 = 7.59 := by norm_num [COURT_WIDTH]
  refine ⟨hw, ?_⟩
  obtain ⟨r, hr, -, hn, -, -, -, h28⟩ := side_scenario_real
  refine ⟨r, hr, by rw [hn]; decide, ?_⟩
  rw [hw]
  have : (7.59 : ℝ) < (r.traj 28).xlat := by
    norm_num at h28 ⊢
    linarith
  exact lt_of_lt_of_le this (le_abs_self _)

/-- C13 (amended): after an integration step that does not land, the run is aborted,
with the position after that step reported as landing and its non-zero height left in
place, exactly when the forward distance exceeds `COURT_LENGTH + 8 = 21.40` or the
absolute lateral offset exceeds `COURT_WIDTH + 5 = 10.18` (the full court width plus
5 m); otherwise the loop goes on from the new state. -/
theorem bounds_abort_rule {K : Type} [LinearOrderedField K]
    (max_points : Int) (fuel : Nat) (s : SimState K)
    (hc : loop_cond max_points s) (hz : ¬ (step s).z ≤ 0) :
    (COURT_LENGTH K + 8 = 21.40 ∧ COURT_WIDTH K + 5 = 10.18) ∧
    (((step s).y > COURT_LENGTH K + 8 ∨ |(step s).xlat| > COURT_WIDTH K + 5) →
      ∃ r, sim_loop max_points (fuel + 1) s = some r ∧ r.exit = Exit.bounds ∧
        r.n = s.idx + 1 ∧
        r.out_landing_y = (step s).y ∧ r.out_landing_x = (step s).xlat ∧
        r.out_landing_z = (step s).z ∧ r.out_landing_z ≠ 0) ∧
    (¬ ((step s).y > COURT_LENGTH K + 8 ∨ |(step s).xlat| > COURT_WIDTH K + 5) →
      sim_loop max_points (fuel + 1) s = sim_loop max_points fuel (step s)) := by
  refine ⟨⟨by norm_num [COURT_LENGTH], by norm_num [COURT_WIDTH]⟩, ?_, ?_⟩
  · intro hb
    have hb' : out_of_bounds (step s) := (out_of_bounds_iff _).mpr hb
    refine ⟨end_result Exit.bounds (step s), ?_, rfl, rfl, rfl, rfl, rfl, ?_⟩
    · rw [sim_loop_succ, if_pos hc, if_neg hz, if_pos hb']
    · show (step s).z ≠ 0
      intro h0
      exact hz (le_of_eq h0)
  · intro hb
    have hb' : ¬ out_of_bounds (step s) := fun h => hb ((out_of_bounds_iff _).mp h)
    rw [sim_loop_succ, if_pos hc, if_neg hz, if_neg hb']

theorem bounds_abort_rule_witness :
    (loop_cond 20000 latched_state ∧ ¬ (step latched_state).z ≤ 0) ∧
    (¬ ((step latched_state).y > COURT_LENGTH ℚ + 8 ∨
        |(step latched_state).xlat| > COURT_WIDTH ℚ + 5) →
      sim_loop 20000 (3 + 1) latched_state = sim_loop 20000 3 (step latched_state)) :=
  ⟨⟨by decide!, by decide!⟩,
    (bounds_abort_rule 20000 3 latched_state (by decide!) (by decide!)).2.2⟩

/-! ## The summary of a run that did not land -/

section Summary
variable {K : Type} [LinearOrderedField K] [FloorRing K]

/-- With `MAX_STEPS` points allowed, `main` always gets at least one point back and
animates it; the closing line is computed from the landing `y`. -/
theorem main_animates (m : Libm K) (player_h : K) (posture : Int)
    (swing tension offset : K) (shot : Int) (yaw : K) (traj0 : Int → Point3 K)
    (buf0 trail0 : Buf) :
    ∃ r a, simulate_trajectory m player_h posture swing tension offset shot yaw traj0
        MAX_STEPS = some r ∧
      main K m player_h posture swing tension offset shot yaw traj0 buf0 trail0 =
        some (r, some a) ∧
      a.verdict = landing_verdict K r.out_landing_y := by
  obtain ⟨r, hr⟩ := simulate_trajectory_returns m player_h posture swing tension offset
    shot yaw traj0 MAX_STEPS
  have h1 : 1 ≤ r.n := by
    have hr' := hr
    unfold simulate_trajectory at hr'
    exact (sim_loop_count MAX_STEPS (by decide) traj0 _ _ r (init_state_idx ..)
      (by rw [init_state_t]; exact clock_timeout_pos) (init_state_traj ..) hr').1
  refine ⟨r, animate_topview K r.traj r.n r.out_landing_y r.out_landing_x
    r.out_cleared_net buf0 trail0, hr, ?_, rfl⟩
  unfold main
  rw [hr]
  show (if r.n ≤ 0 then _ else _) = _
  rw [if_neg (by omega)]

end Summary
/-- C15 (counterexample): the drive aimed 90 degrees to the side (player height 1.75,
standing, swing speed 24, tension 1.0, offset 0.0, shot type 3, yaw 90, real
arithmetic with the real cosine and sine) run through `main`.  The run is ended by the
bounds `break` with a non-zero landing height, and the summary classifies it as
`fell_short`. -/
theorem unlanded_run_classified_short :
    ∃ r a, main ℝ (⟨Real.cos, Real.sin⟩ : Libm ℝ) 1.75 0 24 1.0 0.0 3 90 (zero_buf ℝ)
        (const_panel ' ') (const_trail ' ') = some (r, some a) ∧
      r.exit = Exit.bounds ∧ r.out_landing_z ≠ 0 ∧ a.verdict = Verdict.fell_short := by
  obtain ⟨r, hr, hexit, -, hz, hy, -, -⟩ := side_scenario_real
  obtain ⟨r', a, hr', hmain, hv⟩ := main_animates (⟨Real.cos, Real.sin⟩ : Libm ℝ) 1.75 0 24
    1.0 0.0 3 90 (zero_buf ℝ) (const_panel ' ') (const_trail ' ')
  have hrr : r' = r := by
    rw [hr] at hr'
    exact (Option.some.inj hr').symm
  subst hrr
  refine ⟨r', a, hmain, hexit, ne_of_gt hz, ?_⟩
  rw [hv]
  apply (landing_verdict_iff _).1.mpr
  have : NET_POS ℝ = 6.7 := by norm_num [NET_POS, COURT_LENGTH]
  rw [this]
  norm_num
  linarith

/-- C15 (amended): on every input `main` animates the run, and the summary classifies
it from the landing `y` alone, whether or not the run ended by a ground landing:
`fell_short` iff `y < NET_POS`, `long` iff `y > COURT_LENGTH`, `inside` otherwise.  A
run that ended without a ground landing has a positive landing height, and a run
that stopped beyond `COURT_LENGTH + 8` forward is classified `long`. -/
theorem summary_ignores_landing_height (K : Type) [LinearOrderedField K] [FloorRing K]
    (m : Libm K) (player_h : K) (posture : Int) (swing tension offset : K) (shot : Int)
    (yaw : K) (traj0 : Int → Point3 K) (buf0 trail0 : Buf) :
    ∃ r a, main K m player_h posture swing tension offset shot yaw traj0 buf0 trail0 =
        some (r, some a) ∧
      (a.verdict = Verdict.fell_short ↔ r.out_landing_y < NET_POS K) ∧
      (a.verdict = Verdict.long ↔ r.out_landing_y > COURT_LENGTH K) ∧
      (a.verdict = Verdict.inside ↔
        ¬ r.out_landing_y < NET_POS K ∧ ¬ r.out_landing_y > COURT_LENGTH K) ∧
      (r.exit ≠ Exit.landed → 0 < r.out_landing_z) ∧
      (r.out_landing_y > COURT_LENGTH K + 8 → a.verdict = Verdict.long) := by
  obtain ⟨r, a, hr, hmain, hv⟩ := main_animates m player_h posture swing tension offset
    shot yaw traj0 buf0 trail0
  obtain ⟨i1, i2, i3⟩ := landing_verdict_iff r.out_landing_y
  refine ⟨r, a, hmain, by rw [hv]; exact i1, by rw [hv]; exact i2, by rw [hv]; exact i3,
    ?_, ?_⟩
  · unfold simulate_trajectory at hr
    exact (sim_loop_landing_z MAX_STEPS (by decide) _ _ r (init_state_idx ..)
      (by rw [init_state_t]; exact clock_timeout_pos) hr).2
  · intro hy
    rw [hv]
    apply i2.mpr
    linarith


end Badminton
